import Mathlib

/-!
Verification development for the QAintell request-processing service.

The Python sources are embedded shallowly: dataclasses become structures,
`dict` fields become association lists with Python's insert-or-overwrite
update, machine floats are modelled as exact rationals (`ℚ`), wall-clock
reads (`time.time()`, `datetime.now().timestamp()`) become explicit `ℚ`
parameters threaded through the state, and fallible code returns
`Option`/`Except`.  Every definition follows the corresponding function in
the repository; file and line references are given in the doc comments.
-/

/-- Association-list lookup, mirroring Python `dict.get` / `d[k]`. -/
def lookupKey {κ β : Type} [DecidableEq κ] : List (κ × β) → κ → Option β
  | [], _ => none
  | (k', v') :: rest, k => if k' = k then some v' else lookupKey rest k

/-- Association-list update, mirroring Python `d[k] = v`: replace the value
at an existing key in place, otherwise append at the end (insertion order). -/
def setKey {κ β : Type} [DecidableEq κ] : List (κ × β) → κ → β → List (κ × β)
  | [], k, v => [(k, v)]
  | (k', v') :: rest, k, v =>
      if k' = k then (k, v) :: rest else (k', v') :: setKey rest k v

/-- Association-list deletion, mirroring Python `del d[k]` (dict keys are
unique, so removing every binding of `k` coincides with deleting the one). -/
def delKey {κ β : Type} [DecidableEq κ] (l : List (κ × β)) (k : κ) : List (κ × β) :=
  l.filter (fun p => p.1 ≠ k)

/-- Whether an association list binds a key, mirroring Python `k in d`. -/
def hasKey {κ β : Type} [DecidableEq κ] (l : List (κ × β)) (k : κ) : Bool :=
  (lookupKey l k).isSome

/-- Python `max(0.0, min(1.0, x))`. -/
def clamp01 (x : ℚ) : ℚ := max 0 (min 1 x)

namespace DataStructures

/-- `ValidationStatus` enum, src/data/data_structures.py lines 15-19. -/
inductive ValidationStatus where
  | passed
  | failed
  | warning
  | pending
deriving DecidableEq, Repr

/-- `ValidationResult` dataclass, src/data/data_structures.py lines 202-242.
`checks` is the `Dict[str, float]` of check scores; `improvement_action`
values are irrelevant to the claims and kept as strings. -/
structure ValidationResult where
  checks : List (String × ℚ) := []
  confidence : ℚ := 0
  improvement_action : List (String × String) := []
  overall_score : ℚ := 0
  status : ValidationStatus := ValidationStatus.pending
deriving DecidableEq, Repr

/-- `ValidationResult._recalculate_overall_score`,
src/data/data_structures.py lines 230-242: overall score becomes the mean
of the stored check scores (0 when there are none) and the status is set
from the 0.8 / 0.6 thresholds (left unchanged when there are no checks). -/
def ValidationResult.recalculateOverallScore (r : ValidationResult) : ValidationResult :=
  if r.checks = [] then
    { r with overall_score := 0 }
  else
    let s := (r.checks.map (fun p => p.2)).sum / (r.checks.length : ℚ)
    { r with
      overall_score := s
      status :=
        if s ≥ 0.8 then ValidationStatus.passed
        else if s ≥ 0.6 then ValidationStatus.warning
        else ValidationStatus.failed }

/-- `ValidationResult.add_check`, src/data/data_structures.py lines 210-212:
stores the clamped score and recomputes the overall score and status. -/
def ValidationResult.add_check (r : ValidationResult) (name : String) (score : ℚ) :
    ValidationResult :=
  ValidationResult.recalculateOverallScore
    { r with checks := setKey r.checks name (clamp01 score) }

/-- `ValidationResult.get_check_result`, src/data/data_structures.py
lines 214-215. -/
def ValidationResult.get_check_result (r : ValidationResult) (name : String)
    (dflt : ℚ := 0) : ℚ :=
  (lookupKey r.checks name).getD dflt

/-- `ValidationResult.set_confidence`, src/data/data_structures.py
lines 217-218. -/
def ValidationResult.set_confidence (r : ValidationResult) (c : ℚ) : ValidationResult :=
  { r with confidence := clamp01 c }

/-- `ValidationResult.get_overall_score`, src/data/data_structures.py
lines 223-224. -/
def ValidationResult.get_overall_score (r : ValidationResult) : ℚ := r.overall_score

/-- `ValidationResult.get_weak_aspects`, src/data/data_structures.py
lines 226-228: the names of all checks scoring below 0.6. -/
def ValidationResult.get_weak_aspects (r : ValidationResult) : List String :=
  (r.checks.filter (fun p => p.2 < 0.6)).map (fun p => p.1)

/-- The plain values that can appear in the key/value representation
produced by `ProcessingResult.to_dict` (src/data/data_structures.py
lines 172-184).  `α` stands for Python `Any`, the element type of the
`tool_results` / `validation_results` / `metadata` dictionaries. -/
inductive PVal (α : Type) where
  | str (s : String)
  | rat (q : ℚ)
  | bool (b : Bool)
  | strList (l : List String)
  | assoc (l : List (String × α))
  | pyNone
deriving DecidableEq, Repr

/-- `ProcessingResult` dataclass, src/data/data_structures.py lines 159-170.
`α` is the `Any` payload type of its three dictionaries. -/
structure ProcessingResult (α : Type) where
  response : String := ""
  confidence : ℚ := 0
  success : Bool := false
  processing_time : ℚ := 0
  knowledge_sources : List String := []
  tool_results : List (String × α) := []
  validation_results : List (String × α) := []
  metadata : List (String × α) := []
  errors : List String := []
  error : Option String := none
deriving DecidableEq, Repr

/-- `ProcessingResult.to_dict`, src/data/data_structures.py lines 172-184. -/
def ProcessingResult.to_dict {α : Type} (r : ProcessingResult α) : List (String × PVal α) :=
  [ ("response", PVal.str r.response),
    ("confidence", PVal.rat r.confidence),
    ("success", PVal.bool r.success),
    ("processing_time", PVal.rat r.processing_time),
    ("knowledge_sources", PVal.strList r.knowledge_sources),
    ("tool_results", PVal.assoc r.tool_results),
    ("validation_results", PVal.assoc r.validation_results),
    ("metadata", PVal.assoc r.metadata),
    ("errors", PVal.strList r.errors),
    ("error", match r.error with
              | some e => PVal.str e
              | none => PVal.pyNone) ]

/-- `data.get(key, default)` for a string-valued field.  Returns `none`
(failure) only when the stored value has a type other than the field's
declared one, a case in which the untyped Python code would construct an
ill-typed record and which no claim exercises. -/
def getStrField {α : Type} (d : List (String × PVal α)) (k : String) (dflt : String) :
    Option String :=
  match lookupKey d k with
  | some (PVal.str s) => some s
  | some _ => none
  | none => some dflt

/-- `data.get(key, default)` for a float-valued field. -/
def getRatField {α : Type} (d : List (String × PVal α)) (k : String) (dflt : ℚ) :
    Option ℚ :=
  match lookupKey d k with
  | some (PVal.rat q) => some q
  | some _ => none
  | none => some dflt

/-- `data.get(key, default)` for a bool-valued field. -/
def getBoolField {α : Type} (d : List (String × PVal α)) (k : String) (dflt : Bool) :
    Option Bool :=
  match lookupKey d k with
  | some (PVal.bool b) => some b
  | some _ => none
  | none => some dflt

/-- `data.get(key, default)` for a list-of-strings field. -/
def getStrListField {α : Type} (d : List (String × PVal α)) (k : String)
    (dflt : List String) : Option (List String) :=
  match lookupKey d k with
  | some (PVal.strList l) => some l
  | some _ => none
  | none => some dflt

/-- `data.get(key, default)` for a dict-valued field. -/
def getAssocField {α : Type} (d : List (String × PVal α)) (k : String)
    (dflt : List (String × α)) : Option (List (String × α)) :=
  match lookupKey d k with
  | some (PVal.assoc l) => some l
  | some _ => none
  | none => some dflt

/-- `data.get('error')`: absent or `None` both give `None`. -/
def getErrorField {α : Type} (d : List (String × PVal α)) : Option (Option String) :=
  match lookupKey d "error" with
  | some (PVal.str s) => some (some s)
  | some PVal.pyNone => some none
  | some _ => none
  | none => some none

/-- `ProcessingResult.from_dict`, src/data/data_structures.py lines 186-199:
reads each field with `data.get` and the explicit defaults
(`''`, `0.0`, `False`, `[]`, `{}`, `None`). -/
def ProcessingResult.from_dict {α : Type} (d : List (String × PVal α)) :
    Option (ProcessingResult α) := do
  let response ← getStrField d "response" ""
  let confidence ← getRatField d "confidence" 0
  let success ← getBoolField d "success" false
  let processing_time ← getRatField d "processing_time" 0
  let knowledge_sources ← getStrListField d "knowledge_sources" []
  let tool_results ← getAssocField d "tool_results" []
  let validation_results ← getAssocField d "validation_results" []
  let metadata ← getAssocField d "metadata" []
  let errors ← getStrListField d "errors" []
  let error ← getErrorField d
  pure { response := response, confidence := confidence, success := success,
         processing_time := processing_time, knowledge_sources := knowledge_sources,
         tool_results := tool_results, validation_results := validation_results,
         metadata := metadata, errors := errors, error := error }

end DataStructures

namespace Scheduler

/-- The `processing_route.__dict__` dictionary handed to
`UnifiedScheduler._create_interaction_data` (src/core/scheduler.py line 57):
the fields of a `ProcessingRoute` (src/data/data_structures.py lines 22-28).
`escalated` is read with `processing_route.get('escalated', False)` and is
absent from `ProcessingRoute`, so it is always the default `False`; it is
kept as a field to mirror the `.get` call. -/
structure RouteDict where
  stages : List String := []
  parallel_execution : Bool := false
  timeout : ℚ := 15
  model_preference : String := "balanced"
  escalated : Bool := false
deriving DecidableEq, Repr

/-- The part of the classification dictionary that
`_create_interaction_data` reads (`classification.get('complexity_level', 0)`,
src/core/scheduler.py line 146). -/
structure Classification where
  complexity_level : Int := 0
deriving DecidableEq, Repr

/-- `InteractionData` dataclass, src/data/data_structures.py lines 245-261,
restricted to the fields `_create_interaction_data` assigns. -/
structure InteractionData (α : Type) where
  question : String := ""
  classification : Classification := {}
  processing_route : RouteDict := {}
  result : Option (DataStructures.ProcessingResult α) := none
  total_processing_time : ℚ := 0
  complexity_level : Int := 0
  user_satisfaction_score : ℚ := 0
  resource_consumption : ℚ := 0
  cost_per_interaction : ℚ := 0
  error_count : Int := 0
  total_steps : Int := 0
  was_escalated : Bool := false

/-- `UnifiedScheduler._calculate_resource_consumption`,
src/core/scheduler.py lines 156-160: `0.1` per stage, times `1.3` under
parallel execution. -/
def calculateResourceConsumption (route : RouteDict) : ℚ :=
  let base_consumption := (route.stages.length : ℚ) * 0.1
  if route.parallel_execution then base_consumption * 1.3 else base_consumption

/-- The `cost_per_second` table of `UnifiedScheduler._calculate_cost`,
src/core/scheduler.py lines 164-168, with its `.get(model, 0.001)`
fallback. -/
def costPerSecond (model : String) : ℚ :=
  if model = "qwen-turbo" then 0.001
  else if model = "qwen-plus" then 0.002
  else if model = "qwen-max" then 0.005
  else 0.001

/-- `UnifiedScheduler._calculate_cost`, src/core/scheduler.py
lines 162-169. -/
def calculateCost (route : RouteDict) (processing_time : ℚ) : ℚ :=
  costPerSecond route.model_preference * processing_time

/-- `UnifiedScheduler._create_interaction_data`, src/core/scheduler.py
lines 138-154. -/
def createInteractionData {α : Type} (question : String) (classification : Classification)
    (processing_route : RouteDict) (result : DataStructures.ProcessingResult α)
    (processing_time : ℚ) : InteractionData α :=
  { question := question
    classification := classification
    processing_route := processing_route
    result := some result
    total_processing_time := processing_time
    complexity_level := classification.complexity_level
    user_satisfaction_score := 0.8
    resource_consumption := calculateResourceConsumption processing_route
    cost_per_interaction := calculateCost processing_route processing_time
    error_count := if result.success then 0 else 1
    total_steps := (processing_route.stages.length : Int)
    was_escalated := processing_route.escalated }

end Scheduler

namespace QualityController

/-- The part of the `processing_context` dictionary that
`ConfidenceCalculator.calculate_confidence` reads
(src/core/quality_controller.py lines 131-135): the context is the
`initial_result.__dict__` of a `ProcessingResult`, and only the Python
truthiness of its `knowledge_sources` and `tool_results` entries matters. -/
structure ProcessingContext (α : Type) where
  knowledge_sources : List String := []
  tool_results : List (String × α) := []

/-- `ConfidenceCalculator.calculate_confidence`,
src/core/quality_controller.py lines 123-140: a base confidence of 0.5
plus bonuses of 0.2 / 0.15 / 0.1, multiplied by the validation overall
score and capped at 1.0. -/
def calculateConfidence {α : Type} (_response : String) (ctx : ProcessingContext α)
    (validation_result : DataStructures.ValidationResult) : ℚ :=
  let base_confidence : ℚ := 0.5
  let base_confidence :=
    if validation_result.get_check_result "basic_quality" 0 > 0.7
    then base_confidence + 0.2 else base_confidence
  let base_confidence :=
    if ctx.knowledge_sources.isEmpty then base_confidence else base_confidence + 0.15
  let base_confidence :=
    if ctx.tool_results.isEmpty then base_confidence else base_confidence + 0.1
  let validation_score := validation_result.get_overall_score
  let final_confidence := base_confidence * validation_score
  min final_confidence 1

end QualityController

namespace Calculator

/-- The successful payload of `CalculatorTool._unit_conversion`,
src/tools/calculator_tool.py lines 155-161. -/
structure Conversion where
  converted_value : ℚ
  original_value : ℚ
  from_unit : String
  to_unit : String
  category : String
deriving DecidableEq, Repr

/-- The `length` factor table of `conversion_factors`,
src/tools/calculator_tool.py lines 115-123. -/
def lengthFactors : List (String × ℚ) :=
  [("m", 1), ("cm", 0.01), ("mm", 0.001), ("km", 1000),
   ("inch", 0.0254), ("ft", 0.3048), ("yard", 0.9144)]

/-- The `weight` factor table of `conversion_factors`,
src/tools/calculator_tool.py lines 124-129. -/
def weightFactors : List (String × ℚ) :=
  [("kg", 1), ("g", 0.001), ("lb", 0.453592), ("oz", 0.0283495)]

/-- The unit names of the `temperature` table of `conversion_factors`,
src/tools/calculator_tool.py lines 130-134 (its values are lambdas, never
applied by the conversion code; only key membership matters). -/
def temperatureUnits : List String := ["celsius", "fahrenheit", "kelvin"]

/-- The special-cased temperature arithmetic of
`CalculatorTool._unit_conversion`, src/tools/calculator_tool.py
lines 139-149. -/
def temperatureConvert (value : ℚ) (from_unit to_unit : String) : ℚ :=
  if from_unit = "celsius" ∧ to_unit = "fahrenheit" then value * 9 / 5 + 32
  else if from_unit = "fahrenheit" ∧ to_unit = "celsius" then (value - 32) * 5 / 9
  else if from_unit = "celsius" ∧ to_unit = "kelvin" then value + 273.15
  else if from_unit = "kelvin" ∧ to_unit = "celsius" then value - 273.15
  else value

/-- `CalculatorTool._unit_conversion`, src/tools/calculator_tool.py
lines 107-163: scan the category tables in insertion order
(`length`, `weight`, `temperature`); when both units are in the same
table convert (factor ratio, or the temperature special cases), otherwise
raise `ValueError(f"Unsupported unit conversion: ...")`.  `value` is the
already-parsed `float(expression)`. -/
def unitConversion (value : ℚ) (from_unit to_unit : String) : Except String Conversion :=
  if hasKey lengthFactors from_unit ∧ hasKey lengthFactors to_unit then
    Except.ok
      { converted_value :=
          value * ((lookupKey lengthFactors from_unit).getD 1)
            / ((lookupKey lengthFactors to_unit).getD 1)
        original_value := value, from_unit := from_unit, to_unit := to_unit
        category := "length" }
  else if hasKey weightFactors from_unit ∧ hasKey weightFactors to_unit then
    Except.ok
      { converted_value :=
          value * ((lookupKey weightFactors from_unit).getD 1)
            / ((lookupKey weightFactors to_unit).getD 1)
        original_value := value, from_unit := from_unit, to_unit := to_unit
        category := "weight" }
  else if from_unit ∈ temperatureUnits ∧ to_unit ∈ temperatureUnits then
    Except.ok
      { converted_value := temperatureConvert value from_unit to_unit
        original_value := value, from_unit := from_unit, to_unit := to_unit
        category := "temperature" }
  else
    Except.error ("Unsupported unit conversion: " ++ from_unit ++ " to " ++ to_unit)

/-- The outcome of `CalculatorTool.execute`, src/tools/calculator_tool.py
lines 20-47: a `status: success` payload carrying the result, or a
`status: error` record whose `result` is `None` and whose `error` is the
caught exception text. -/
inductive ExecOutcome where
  | success (result : Conversion)
  | error (msg : String)
deriving DecidableEq, Repr

/-- `CalculatorTool.execute` on `calculation_type = 'unit_conversion'`,
src/tools/calculator_tool.py lines 20-47: the `ValueError` raised by
`_unit_conversion` is caught and reported as an error record. -/
def executeUnitConversion (value : ℚ) (from_unit to_unit : String) : ExecOutcome :=
  match unitConversion value from_unit to_unit with
  | Except.ok c => ExecOutcome.success c
  | Except.error e => ExecOutcome.error e

end Calculator

namespace Cache

/-- `MemoryCache`, src/utils/cache_manager.py lines 115-121: the in-memory
tier with its value store and per-key access/expiry timestamps.  Wall-clock
reads (`time.time()`) are threaded in as explicit `ℚ` arguments. -/
structure MemoryCache (V : Type) where
  max_size : Nat
  default_ttl : ℚ
  cache : List (String × V) := []
  access_times : List (String × ℚ) := []
  expiry_times : List (String × ℚ) := []

/-- `MemoryCache._is_expired`, src/utils/cache_manager.py lines 172-175:
a key with no recorded expiry counts as expired; otherwise it is expired
once the current time passes the recorded expiry. -/
def MemoryCache.isExpired {V : Type} (mc : MemoryCache V) (now : ℚ) (key : String) : Bool :=
  match lookupKey mc.expiry_times key with
  | none => true
  | some e => now > e

/-- `MemoryCache.delete`, src/utils/cache_manager.py lines 147-153. -/
def MemoryCache.delete {V : Type} (mc : MemoryCache V) (key : String) :
    Bool × MemoryCache V :=
  if hasKey mc.cache key then
    (true, { mc with cache := delKey mc.cache key
                     access_times := delKey mc.access_times key
                     expiry_times := delKey mc.expiry_times key })
  else (false, mc)

/-- `MemoryCache.get`, src/utils/cache_manager.py lines 123-132: absent
keys and expired keys return `None`, expired entries being deleted on the
way (lazy removal); otherwise the access time is refreshed and the value
returned. -/
def MemoryCache.get {V : Type} (mc : MemoryCache V) (now : ℚ) (key : String) :
    Option V × MemoryCache V :=
  match lookupKey mc.cache key with
  | none => (none, mc)
  | some v =>
      if mc.isExpired now key then
        (none, (mc.delete key).2)
      else
        (some v, { mc with access_times := setKey mc.access_times key now })

/-- The first key minimising the access time, i.e. Python
`min(self.access_times.keys(), key=lambda k: self.access_times[k])`
(ties keep the earlier key, as `min` does). -/
def argminKey : List (String × ℚ) → Option (String × ℚ)
  | [] => none
  | p :: rest =>
      match argminKey rest with
      | none => some p
      | some q => if q.2 < p.2 then some q else some p

/-- `MemoryCache._evict_lru`, src/utils/cache_manager.py lines 177-182. -/
def MemoryCache.evictLRU {V : Type} (mc : MemoryCache V) : MemoryCache V :=
  match argminKey mc.access_times with
  | none => mc
  | some p => ((mc.delete p.1).2)

/-- `MemoryCache.set`, src/utils/cache_manager.py lines 134-145.  The
Python line `ttl = ttl or self.default_ttl` treats both `None` and the
falsy `0` as "use the default TTL"; a negative TTL is truthy and kept. -/
def MemoryCache.set {V : Type} (mc : MemoryCache V) (now : ℚ) (key : String) (value : V)
    (ttl : Option ℚ) : MemoryCache V :=
  let mc :=
    if mc.cache.length ≥ mc.max_size ∧ ¬ hasKey mc.cache key then mc.evictLRU else mc
  let ttlVal :=
    match ttl with
    | none => mc.default_ttl
    | some t => if t = 0 then mc.default_ttl else t
  { mc with cache := setKey mc.cache key value
            access_times := setKey mc.access_times key now
            expiry_times := setKey mc.expiry_times key (now + ttlVal) }

end Cache

namespace Classifier

/-- The dictionary returned by `UrgencyAnalyzer._analyze_time_sensitivity`,
src/analyzers/urgency_analyzer.py lines 154-158. -/
structure TimeSensitivity where
  time_frame : String
  time_scores : List (String × ℚ)
  urgency_level : String
deriving DecidableEq, Repr

/-- The dictionary returned by `UrgencyAnalyzer._analyze_action_type`,
src/analyzers/urgency_analyzer.py lines 182-186. -/
structure ActionType where
  action_type : String
  action_scores : List (String × ℚ)
  urgency_level : String
deriving DecidableEq, Repr

/-- The dictionary returned by `UrgencyAnalyzer._analyze_context_urgency`,
src/analyzers/urgency_analyzer.py lines 225-229. -/
structure ContextUrgency where
  context_type : String
  context_scores : List (String × ℚ)
  urgency_level : String
deriving DecidableEq, Repr

/-- The dictionary returned by `UrgencyAnalyzer.analyze`,
src/analyzers/urgency_analyzer.py lines 70-87.  This whole dictionary —
not its `urgency_level` entry — is what `classify_question` stores under
`analysis_result['urgency']` (src/core/classifier.py line 29). -/
structure UrgencyAnalysis where
  urgency_level : String
  urgency_scores : List (String × ℚ)
  time_sensitivity : TimeSensitivity
  action_type : ActionType
  context_urgency : ContextUrgency
  confidence : ℚ
deriving DecidableEq, Repr

/-- Python `==` between the urgency-analysis dict and a string: a `dict`
and a `str` are never equal in Python (`dict.__eq__` and `str.__eq__` both
return `NotImplemented` for the other operand, and the interpreter then
falls back to identity, which fails for distinct objects), so this
comparison — the one performed at src/core/classifier.py line 58 — is
constantly `False`. -/
def pyDictEqStr (_d : UrgencyAnalysis) (_s : String) : Bool := false

/-- The `analysis_result` dictionary assembled by
`MultiDimensionalClassifier.classify_question`, src/core/classifier.py
lines 25-33, in the shape its consumers read: `complexity` is the `int`
returned by `ComplexityAnalyzer.analyze`, `urgency` is the full
`UrgencyAnalyzer.analyze` dictionary, `tool_required` is
`tool_needs['required']`, `requires_fresh` is
`freshness_need['requires_fresh']`, `user_expertise` is
`user_profile['expertise_level']`. -/
structure AnalysisResult where
  complexity : Int
  domain : String
  urgency : UrgencyAnalysis
  tool_required : Bool
  requires_fresh : Bool
  user_expertise : String
deriving DecidableEq, Repr

/-- The routing-decision dictionary returned by
`MultiDimensionalClassifier.synthesize_routing_decision`,
src/core/classifier.py lines 42-50; its `urgency_level` entry holds the
whole urgency dictionary, exactly as the code stores it. -/
structure RoutingDecision where
  complexity_level : Int
  domain_type : String
  urgency_level : UrgencyAnalysis
  requires_tools : Bool
  requires_fresh_data : Bool
  user_expertise : String
  recommended_strategy : String
deriving DecidableEq, Repr

/-- `MultiDimensionalClassifier._determine_strategy`, src/core/classifier.py
lines 54-65, with `urgency == 'high'` embedded as the Python dict-vs-str
comparison it actually is. -/
def determineStrategy (a : AnalysisResult) : String :=
  if pyDictEqStr a.urgency "high" ∧ a.complexity ≤ 2 then "fast_track"
  else if a.complexity ≥ 4 then "comprehensive"
  else if a.tool_required then "tool_assisted"
  else "standard"

/-- `MultiDimensionalClassifier.synthesize_routing_decision`,
src/core/classifier.py lines 37-52. -/
def synthesizeRoutingDecision (a : AnalysisResult) : RoutingDecision :=
  { complexity_level := a.complexity
    domain_type := a.domain
    urgency_level := a.urgency
    requires_tools := a.tool_required
    requires_fresh_data := a.requires_fresh
    user_expertise := a.user_expertise
    recommended_strategy := determineStrategy a }

end Classifier

namespace Pipeline

/-- The `Any` payload stored in the pipeline state's dictionaries:
the metadata written by the embedded stages holds naturals
(`original_length`, `word_count`), validation results hold booleans,
knowledge and tool results hold strings or string lists. -/
inductive AnyVal where
  | nat (n : Nat)
  | bool (b : Bool)
  | str (s : String)
  | strList (l : List String)
deriving DecidableEq, Repr

/-- The part of the `route_config` dictionary that
`AdvancedProcessingPipeline.execute_pipeline` itself reads
(`route_config['stages']`, src/core/pipeline.py line 38). -/
structure RouteConfig where
  stages : List String
deriving DecidableEq, Repr

/-- `PipelineState` dataclass, src/data/data_structures.py lines 70-84.
`start_time` is the `datetime.now().timestamp()` taken at construction,
passed in explicitly. -/
structure PipelineState where
  question : String
  route_config : RouteConfig
  context : List (String × AnyVal)
  processed_question : String := ""
  response : String := ""
  confidence : ℚ := 0
  knowledge_results : List (String × AnyVal) := []
  tool_results : List (String × AnyVal) := []
  validation_results : List (String × AnyVal) := []
  metadata : List (String × AnyVal) := []
  errors : List String := []
  start_time : ℚ
deriving DecidableEq, Repr

/-- `PipelineState.add_validation_result`, src/data/data_structures.py
lines 92-93. -/
def PipelineState.add_validation_result (st : PipelineState) (check_name : String)
    (result : Bool) : PipelineState :=
  { st with validation_results := setKey st.validation_results check_name (AnyVal.bool result) }

/-- `PipelineState.add_metadata`, src/data/data_structures.py lines 95-96. -/
def PipelineState.add_metadata (st : PipelineState) (key : String) (value : AnyVal) :
    PipelineState :=
  { st with metadata := setKey st.metadata key value }

/-- `PipelineState.add_error`, src/data/data_structures.py lines 98-99. -/
def PipelineState.add_error (st : PipelineState) (error : String) : PipelineState :=
  { st with errors := st.errors ++ [error] }

/-- `PipelineState.set_response`, src/data/data_structures.py
lines 101-102. -/
def PipelineState.set_response (st : PipelineState) (response : String) : PipelineState :=
  { st with response := response }

/-- `PipelineState.set_confidence`, src/data/data_structures.py
lines 104-105: clamps into `[0, 1]`. -/
def PipelineState.set_confidence (st : PipelineState) (confidence : ℚ) : PipelineState :=
  { st with confidence := clamp01 confidence }

/-- `PipelineState.get_final_result`, src/data/data_structures.py
lines 143-156: success iff no recorded error and a truthy (non-empty)
response; `now` is the `datetime.now().timestamp()` read. -/
def PipelineState.get_final_result (st : PipelineState) (now : ℚ) :
    DataStructures.ProcessingResult AnyVal :=
  { response := st.response
    confidence := st.confidence
    success := st.errors.isEmpty && !(st.response = "")
    processing_time := now - st.start_time
    knowledge_sources := st.knowledge_results.map (fun p => p.1)
    tool_results := st.tool_results
    validation_results := st.validation_results
    metadata := st.metadata
    errors := st.errors
    error := none }

/-- Python `len(s.split())`: count of maximal whitespace-free runs. -/
def pyWordCount (s : String) : Nat :=
  ((s.split Char.isWhitespace).filter (fun w => ¬ w = "")).length

/-- `PreprocessingStage.process`, src/core/pipeline.py lines 62-68:
strips the question and records length metadata. -/
def preprocessingProcess (st : PipelineState) : PipelineState :=
  let question := st.question.trim
  let st := { st with processed_question := question }
  let st := st.add_metadata "original_length" (AnyVal.nat question.length)
  st.add_metadata "word_count" (AnyVal.nat (pyWordCount question))

/-- `SimpleReasoningStage.process`, src/core/pipeline.py lines 162-167. -/
def simpleReasoningProcess (st : PipelineState) : PipelineState :=
  let response := "基于简单推理的回答: " ++ st.processed_question
  (st.set_response response).set_confidence 0.7

/-- `BasicValidationStage.process`, src/core/pipeline.py lines 230-236:
records `basic_check` as passed iff the response is truthy and longer than
10 characters. -/
def basicValidationProcess (st : PipelineState) : PipelineState :=
  if ¬ st.response = "" ∧ st.response.length > 10 then
    st.add_validation_result "basic_check" true
  else
    st.add_validation_result "basic_check" false

/-- The `stage_processors` table of `AdvancedProcessingPipeline.__init__`,
src/core/pipeline.py lines 11-28, in source order.  The three stages the
claims exercise are embedded concretely; the remaining thirteen are taken
as an abstract parameter `other`, since the executions under scrutiny
never reach them — the theorems below hold for every choice of `other`. -/
def stageProcessors (other : String → PipelineState → PipelineState) :
    List (String × (PipelineState → PipelineState)) :=
  [ ("preprocessing", preprocessingProcess),
    ("knowledge_retrieval", other "knowledge_retrieval"),
    ("multi_source_retrieval", other "multi_source_retrieval"),
    ("tool_orchestration", other "tool_orchestration"),
    ("tool_planning", other "tool_planning"),
    ("tool_execution", other "tool_execution"),
    ("reasoning", other "reasoning"),
    ("simple_reasoning", simpleReasoningProcess),
    ("advanced_reasoning", other "advanced_reasoning"),
    ("result_integration", other "result_integration"),
    ("validation", other "validation"),
    ("basic_validation", basicValidationProcess),
    ("multi_stage_validation", other "multi_stage_validation"),
    ("fact_checking", other "fact_checking"),
    ("expert_validation", other "expert_validation"),
    ("postprocessing", other "postprocessing") ]

/-- `AdvancedProcessingPipeline.execute_pipeline`, src/core/pipeline.py
lines 32-49: run each named stage in order, recording
`"Unknown stage: <name>"` for names missing from `stage_processors`
(and continuing with the next stage), then build the final result and
overwrite its processing time.  `t0` is the starting `time.time()` /
state construction timestamp, `t1` the finishing one. -/
def executePipeline (other : String → PipelineState → PipelineState)
    (question : String) (route_config : RouteConfig) (context : List (String × AnyVal))
    (t0 t1 : ℚ) : DataStructures.ProcessingResult AnyVal :=
  let st0 : PipelineState :=
    { question := question, route_config := route_config, context := context,
      start_time := t0 }
  let final := route_config.stages.foldl
    (fun st stage_name =>
      match lookupKey (stageProcessors other) stage_name with
      | some f => f st
      | none => st.add_error ("Unknown stage: " ++ stage_name))
    st0
  let result := final.get_final_result t1
  { result with processing_time := t1 - t0 }

end Pipeline

namespace RouteHeap

/-- A heap of Python list and dict objects, for reasoning about the
aliasing behaviour of `ProcessingRoute` (src/data/data_structures.py
lines 22-48): `stages` lists and `context` dicts live in the store and
routes hold references to them, so that sharing against copying is
observable.  `V` is the `Any` type of context values. -/
structure Store (V : Type) where
  lists : List (Nat × List String) := []
  dicts : List (Nat × List (String × V)) := []
  nextId : Nat := 0

/-- Read a stage-list object. -/
def Store.getList {V : Type} (σ : Store V) (i : Nat) : List String :=
  (lookupKey σ.lists i).getD []

/-- Read a context-dict object. -/
def Store.getDict {V : Type} (σ : Store V) (i : Nat) : List (String × V) :=
  (lookupKey σ.dicts i).getD []

/-- Overwrite a stage-list object in place. -/
def Store.setList {V : Type} (σ : Store V) (i : Nat) (l : List String) : Store V :=
  { σ with lists := setKey σ.lists i l }

/-- Overwrite a context-dict object in place. -/
def Store.setDict {V : Type} (σ : Store V) (i : Nat) (d : List (String × V)) : Store V :=
  { σ with dicts := setKey σ.dicts i d }

/-- All allocated object ids are below the allocation counter. -/
def Store.WF {V : Type} (σ : Store V) : Prop :=
  (∀ p ∈ σ.lists, p.1 < σ.nextId) ∧ (∀ p ∈ σ.dicts, p.1 < σ.nextId)

/-- `ProcessingRoute` dataclass, src/data/data_structures.py lines 22-28:
scalar fields inline (rebinding them on one route object cannot affect
another), mutable `stages` / `context` as references into the store. -/
structure ProcessingRoute where
  stagesId : Nat
  contextId : Nat
  parallel_execution : Bool := false
  timeout : ℚ := 15
  model_preference : String := "balanced"
deriving DecidableEq, Repr

/-- The route's ids point at allocated objects. -/
def validRef {V : Type} (σ : Store V) (r : ProcessingRoute) : Prop :=
  r.stagesId < σ.nextId ∧ r.contextId < σ.nextId

/-- `ProcessingRoute.copy`, src/data/data_structures.py lines 30-37:
a new route object whose `stages` is `self.stages.copy()` and whose
`context` is `self.context.copy()` — fresh list and dict objects holding
the same elements — while the scalar fields are copied by value. -/
def copyRoute {V : Type} (σ : Store V) (r : ProcessingRoute) :
    Store V × ProcessingRoute :=
  let sid := σ.nextId
  let cid := σ.nextId + 1
  let σ' : Store V :=
    { lists := setKey σ.lists sid (σ.getList r.stagesId)
      dicts := setKey σ.dicts cid (σ.getDict r.contextId)
      nextId := σ.nextId + 2 }
  (σ', { r with stagesId := sid, contextId := cid })

/-- `ProcessingRoute.add_stage`, src/data/data_structures.py lines 39-41:
append the stage to the route's stage-list object unless already present. -/
def add_stage {V : Type} (σ : Store V) (r : ProcessingRoute) (stage_name : String) :
    Store V :=
  let stages := σ.getList r.stagesId
  if stage_name ∈ stages then σ else σ.setList r.stagesId (stages ++ [stage_name])

/-- `ProcessingRoute.remove_stage`, src/data/data_structures.py
lines 43-45: remove the (first) occurrence when present. -/
def remove_stage {V : Type} (σ : Store V) (r : ProcessingRoute) (stage_name : String) :
    Store V :=
  let stages := σ.getList r.stagesId
  if stage_name ∈ stages then σ.setList r.stagesId (stages.erase stage_name) else σ

/-- `ProcessingRoute.add_context`, src/data/data_structures.py
lines 47-48. -/
def add_context {V : Type} (σ : Store V) (r : ProcessingRoute) (key : String) (value : V) :
    Store V :=
  σ.setDict r.contextId (setKey (σ.getDict r.contextId) key value)

/-- The heap-mutating route operations of `ProcessingRoute`. -/
inductive RouteOp (V : Type) where
  | addStage (s : String)
  | removeStage (s : String)
  | addContext (k : String) (v : V)

/-- Apply one route operation through a given route reference. -/
def applyOp {V : Type} (σ : Store V) (r : ProcessingRoute) : RouteOp V → Store V
  | RouteOp.addStage s => add_stage σ r s
  | RouteOp.removeStage s => remove_stage σ r s
  | RouteOp.addContext k v => add_context σ r k v

/-- Apply a sequence of route operations through a given route reference. -/
def applyOps {V : Type} (σ : Store V) (r : ProcessingRoute) (ops : List (RouteOp V)) :
    Store V :=
  ops.foldl (fun σ op => applyOp σ r op) σ

end RouteHeap

namespace Orchestrator

/-- The tools registered by `ToolRegistry._initialize_default_tools`,
src/tools/tool_registry.py lines 42-56, keyed by their `name` attributes
(`web_search`, `rag_retrieval`, `calculator`, `translator`). -/
def registeredTools : List String :=
  ["web_search", "rag_retrieval", "calculator", "translator"]

/-- `ToolDependencyAnalyzer.analyze_input_dependencies`,
src/tools/tool_orchestrator.py lines 349-359: the fixed `dependency_rules`
table with `.get(tool.name, [])` fallback (the tools mapped to `[]` and
the absent ones coincide). -/
def inputDependencyRules (name : String) : List String :=
  if name = "calculator" then ["web_search", "rag_retrieval"]
  else if name = "data_analyzer" then ["web_search", "rag_retrieval", "file_manager"]
  else if name = "code_executor" then ["rag_retrieval"]
  else []

/-- `ToolDependencyAnalyzer.analyze_output_dependencies`,
src/tools/tool_orchestrator.py lines 361-374. -/
def analyzeOutputDependencies (name : String) (toolNames : List String) : List String :=
  let other_tools := toolNames.filter (fun n => ¬ n = name)
  let potential_outputs :=
    if name = "web_search" then ["calculator", "data_analyzer"]
    else if name = "rag_retrieval" then ["calculator", "data_analyzer", "code_executor"]
    else []
  potential_outputs.filter (fun n => n ∈ other_tools)

/-- A node of `ToolDependencyGraph` (src/tools/tool_orchestrator.py
lines 12-19) as plan generation reads it: its `input_deps` and
`output_deps` (the stored tool object and the `'pending'` status play no
role in `topological_sort` or `_identify_parallel_groups`). -/
structure Node where
  input_deps : List String
  output_deps : List String
deriving DecidableEq, Repr

/-- `IntelligentToolOrchestrator.analyze_tool_dependencies`,
src/tools/tool_orchestrator.py lines 120-132: each requested tool found in
the registry is added to the graph (dict insert-or-overwrite) with the
analyzer's input and output dependencies. -/
def analyzeToolDependencies (requested : List String) : List (String × Node) :=
  requested.foldl
    (fun nodes name =>
      if name ∈ registeredTools then
        setKey nodes name
          { input_deps := inputDependencyRules name
            output_deps := analyzeOutputDependencies name requested }
      else nodes)
    []

/-- The `input_deps` of a graph node
(`tool_graph.nodes[tool_name]['input_deps']`). -/
def depsOfGraph (nodes : List (String × Node)) (name : String) : List String :=
  ((lookupKey nodes name).map (fun nd => nd.input_deps)).getD []

/-- The `while temp_graph:` loop of `ToolDependencyGraph.topological_sort`,
src/tools/tool_orchestrator.py lines 37-55: emit (in insertion order) the
nodes whose remaining dependency lists are empty, delete them, erase them
from the other nodes' dependency lists, and repeat; when no node is ready
the remaining names are appended as-is. -/
def topoLoop (graph : List (String × List String)) : List String :=
  if _hg : graph.isEmpty then []
  else
    let ready := (graph.filter (fun p => p.2.isEmpty)).map (fun p => p.1)
    if _hr : ready.isEmpty then graph.map (fun p => p.1)
    else
      let graph' := (graph.filter (fun p => !p.2.isEmpty)).map
        (fun p => (p.1, ready.foldl (fun deps r => deps.erase r) p.2))
      ready ++ topoLoop graph'
termination_by graph.length
decreasing_by
  simp only [List.length_map]
  have hne : (graph.filter (fun p => p.2.isEmpty)).map (fun p => p.1) ≠ [] := by
    intro hcon
    exact _hr (by simp [ready, hcon])
  have hex : ∃ p ∈ graph, p.2.isEmpty := by
    rcases List.exists_mem_of_ne_nil _ hne with ⟨x, hx⟩
    rcases List.mem_map.mp hx with ⟨p, hp, _⟩
    exact ⟨p, (List.mem_filter.mp hp).1, (List.mem_filter.mp hp).2⟩
  have hsplit := List.length_eq_length_filter_add (l := graph) (fun p => p.2.isEmpty)
  have hpos : 0 < (graph.filter (fun p => p.2.isEmpty)).length := by
    rcases hex with ⟨p, hp, hpe⟩
    exact List.length_pos.mpr (List.ne_nil_of_mem (List.mem_filter.mpr ⟨hp, hpe⟩))
  omega

/-- `ToolDependencyGraph.topological_sort`, src/tools/tool_orchestrator.py
lines 37-55, on the graph's `(name, input_deps)` view. -/
def topologicalSort (nodes : List (String × Node)) : List String :=
  topoLoop (nodes.map (fun p => (p.1, p.2.input_deps)))

/-- One scan of `remaining_tools` in
`IntelligentToolOrchestrator._identify_parallel_groups`,
src/tools/tool_orchestrator.py lines 183-191: collect, in order, the tools
whose input dependencies are all outside `remaining_tools`, stopping the
group at `max_parallel_tools = 3` members (the membership tests run
against `remaining_tools` as it stood at the start of the scan, since the
code only removes the collected tools after the loop). -/
def scanPass (depsOf : String → List String) (remaining : List String) : List String :=
  remaining.foldl
    (fun current_group tool_name =>
      if ((depsOf tool_name).all (fun dep => !remaining.contains dep))
          && current_group.length < 3
      then current_group ++ [tool_name]
      else current_group)
    []

/-- The group taken in one iteration of the `while remaining_tools:` loop
(src/tools/tool_orchestrator.py lines 180-195): the scan's group, or —
when the scan found nothing and tools remain — the single head of
`remaining_tools`. -/
def passGroup (depsOf : String → List String) (remaining : List String) : List String :=
  let g0 := scanPass depsOf remaining
  if g0.isEmpty then remaining.take 1 else g0

/-- Removing the collected group from `remaining_tools`
(src/tools/tool_orchestrator.py lines 197-198; `list.remove` drops the
first occurrence). -/
def removeGroup (remaining group : List String) : List String :=
  group.foldl (fun rem tool_name => rem.erase tool_name) remaining

/-- The `while remaining_tools:` loop of `_identify_parallel_groups`,
src/tools/tool_orchestrator.py lines 179-203, with an explicit fuel
bounding the number of iterations.  Each iteration removes at least one
tool (the emitted group is never empty, thanks to the single-head
fallback, so the source's `if current_group:` guard before appending never
skips), hence a fuel of `remaining.length` is enough to drain the list;
`groupsLoop_adequate` below proves the fuel never runs out. -/
def groupsLoop (depsOf : String → List String) : Nat → List String → List (List String)
  | 0, _ => []
  | _ + 1, [] => []
  | fuel + 1, remaining@(_ :: _) =>
      let g := passGroup depsOf remaining
      g :: groupsLoop depsOf fuel (removeGroup remaining g)

/-- `IntelligentToolOrchestrator._identify_parallel_groups`,
src/tools/tool_orchestrator.py lines 175-203. -/
def identifyParallelGroups (depsOf : String → List String)
    (execution_order : List String) : List (List String) :=
  groupsLoop depsOf execution_order.length execution_order

/-- The groups of the execution plan built by
`IntelligentToolOrchestrator.generate_execution_plan`,
src/tools/tool_orchestrator.py lines 134-148: one `ExecutionStage` per
parallel group, in order, each holding that group's tool tasks. -/
def generateExecutionPlanGroups (nodes : List (String × Node)) : List (List String) :=
  identifyParallelGroups (depsOfGraph nodes) (topologicalSort nodes)

end Orchestrator

/-! ## Association-list lemmas -/

theorem lookupKey_setKey_self {κ β : Type} [DecidableEq κ] (l : List (κ × β)) (k : κ)
    (v : β) : lookupKey (setKey l k v) k = some v := by
  induction l with
  | nil => simp [setKey, lookupKey]
  | cons p rest ih =>
      by_cases h : p.1 = k
      · simp [setKey, h, lookupKey]
      · simp only [setKey]
        rw [if_neg (by exact h)]
        simpa [lookupKey, h] using ih

theorem lookupKey_setKey_ne {κ β : Type} [DecidableEq κ] (l : List (κ × β)) {k k' : κ}
    (v : β) (h : k' ≠ k) : lookupKey (setKey l k v) k' = lookupKey l k' := by
  have hkk : ¬ k = k' := fun he => h he.symm
  induction l with
  | nil =>
      simp only [setKey, lookupKey]
      rw [if_neg hkk]
  | cons p rest ih =>
      obtain ⟨k₀, v₀⟩ := p
      by_cases hp : k₀ = k
      · subst hp
        simp only [setKey, if_pos rfl, lookupKey]
        rw [if_neg hkk, if_neg hkk]
      · simp only [setKey, if_neg hp, lookupKey]
        by_cases hp' : k₀ = k'
        · rw [if_pos hp', if_pos hp']
        · rw [if_neg hp', if_neg hp', ih]

theorem setKey_ne_nil {κ β : Type} [DecidableEq κ] (l : List (κ × β)) (k : κ) (v : β) :
    setKey l k v ≠ [] := by
  cases l with
  | nil => simp [setKey]
  | cons p rest =>
      simp only [setKey]
      split <;> simp

theorem mem_setKey {κ β : Type} [DecidableEq κ] {l : List (κ × β)} {k : κ} {v : β}
    {p : κ × β} (hp : p ∈ setKey l k v) : p ∈ l ∨ p = (k, v) := by
  induction l with
  | nil => simpa [setKey] using hp
  | cons q rest ih =>
      by_cases hq : q.1 = k
      · simp only [setKey, if_pos hq] at hp
        rcases List.mem_cons.mp hp with h1 | h2
        · exact Or.inr h1
        · exact Or.inl (List.mem_cons_of_mem q h2)
      · simp only [setKey, if_neg hq] at hp
        rcases List.mem_cons.mp hp with h1 | h2
        · exact Or.inl (h1 ▸ List.mem_cons_self q rest)
        · rcases ih h2 with h3 | h4
          · exact Or.inl (List.mem_cons_of_mem q h3)
          · exact Or.inr h4

theorem lookupKey_delKey_self {κ β : Type} [DecidableEq κ] (l : List (κ × β)) (k : κ) :
    lookupKey (delKey l k) k = none := by
  induction l with
  | nil => simp [delKey, lookupKey]
  | cons p rest ih =>
      by_cases h : p.1 = k
      · simpa [delKey, h] using ih
      · simpa [delKey, h, lookupKey] using ih

theorem lookupKey_eq_none_of_not_mem {κ β : Type} [DecidableEq κ] {l : List (κ × β)}
    {k : κ} (h : k ∉ l.map Prod.fst) : lookupKey l k = none := by
  induction l with
  | nil => rfl
  | cons p rest ih =>
      have h1 : ¬ p.1 = k := fun he => h (by simp [he])
      have h2 : k ∉ rest.map Prod.fst := fun hm => h (by simp [hm])
      simp [lookupKey, h1, ih h2]

/-! ## Claim C3 — ValidationResult scoring -/

/-- **C3.**  Every `add_check` leaves the `ValidationResult` with an
`overall_score` equal to the arithmetic mean of the stored (clamped) check
scores, a status derived from the 0.8 / 0.6 thresholds on that score, and
`get_weak_aspects` returning exactly the checks scoring below 0.6; the
newly added check itself is stored clamped into `[0, 1]`.  In particular,
adding checks scoring 0.9, 0.9 and 0.3 yields an overall score of exactly
0.7 (so certainly within `1e-9`), status `warning`, and exactly one weak
aspect. -/
theorem claim_C3_validation_result_scoring (r : DataStructures.ValidationResult)
    (name : String) (score : ℚ) :
    ((r.add_check name score).overall_score
        = (((r.add_check name score).checks.map (fun p => p.2)).sum
            / ((r.add_check name score).checks.length : ℚ))
      ∧ (r.add_check name score).status
        = (if (r.add_check name score).overall_score ≥ 0.8 then
             DataStructures.ValidationStatus.passed
           else if (r.add_check name score).overall_score ≥ 0.6 then
             DataStructures.ValidationStatus.warning
           else DataStructures.ValidationStatus.failed)
      ∧ lookupKey (r.add_check name score).checks name = some (clamp01 score)
      ∧ (r.add_check name score).get_weak_aspects
        = (((r.add_check name score).checks.filter (fun p => p.2 < 0.6)).map
            (fun p => p.1)))
    ∧ ((((({} : DataStructures.ValidationResult).add_check "c1" 0.9).add_check
          "c2" 0.9).add_check "c3" 0.3).overall_score = 0.7
      ∧ (((({} : DataStructures.ValidationResult).add_check "c1" 0.9).add_check
          "c2" 0.9).add_check "c3" 0.3).status
          = DataStructures.ValidationStatus.warning
      ∧ (((({} : DataStructures.ValidationResult).add_check "c1" 0.9).add_check
          "c2" 0.9).add_check "c3" 0.3).get_weak_aspects = ["c3"]) := by
  constructor
  · have hne : setKey r.checks name (clamp01 score) ≠ [] := setKey_ne_nil _ _ _
    constructor
    · simp [DataStructures.ValidationResult.add_check,
        DataStructures.ValidationResult.recalculateOverallScore, hne]
    constructor
    · simp only [DataStructures.ValidationResult.add_check,
        DataStructures.ValidationResult.recalculateOverallScore, hne, if_neg hne]
      split <;> split <;> simp_all
    constructor
    · simp [DataStructures.ValidationResult.add_check,
        DataStructures.ValidationResult.recalculateOverallScore, hne,
        lookupKey_setKey_self]
    · simp [DataStructures.ValidationResult.get_weak_aspects]
  · refine ⟨?_, ?_, ?_⟩ <;>
      · simp [DataStructures.ValidationResult.add_check,
          DataStructures.ValidationResult.recalculateOverallScore,
          DataStructures.ValidationResult.get_weak_aspects, setKey, clamp01]
        norm_num

/-! ## Claim C10 — confidence calculator bound -/

/-- A `ValidationResult` whose entire check dictionary was populated
through `add_check` (starting from the freshly constructed record). -/
def builtByAddCheck (v : DataStructures.ValidationResult) : Prop :=
  ∃ adds : List (String × ℚ),
    v = adds.foldl (fun r p => r.add_check p.1 p.2) {}

theorem clamp01_nonneg (x : ℚ) : 0 ≤ clamp01 x := le_max_left 0 _

theorem clamp01_le_one (x : ℚ) : clamp01 x ≤ 1 := by
  have h : min 1 x ≤ 1 := min_le_left 1 x
  exact max_le (by norm_num) h

/-- Invariant carried by `add_check`: all stored scores are clamped into
`[0, 1]` and the overall score stays in `[0, 1]`. -/
theorem validationResult_invariant (adds : List (String × ℚ))
    (r : DataStructures.ValidationResult)
    (hr : (∀ p ∈ r.checks, 0 ≤ p.2 ∧ p.2 ≤ 1) ∧ 0 ≤ r.overall_score ∧ r.overall_score ≤ 1) :
    (∀ p ∈ (adds.foldl (fun r p => r.add_check p.1 p.2) r).checks, 0 ≤ p.2 ∧ p.2 ≤ 1)
    ∧ 0 ≤ (adds.foldl (fun r p => r.add_check p.1 p.2) r).overall_score
    ∧ (adds.foldl (fun r p => r.add_check p.1 p.2) r).overall_score ≤ 1 := by
  induction adds generalizing r with
  | nil => exact hr
  | cons a rest ih =>
      apply ih
      have hchecks : ∀ p ∈ (r.add_check a.1 a.2).checks, 0 ≤ p.2 ∧ p.2 ≤ 1 := by
        intro p hp
        have hmem : p ∈ setKey r.checks a.1 (clamp01 a.2) := by
          simpa [DataStructures.ValidationResult.add_check,
            DataStructures.ValidationResult.recalculateOverallScore,
            setKey_ne_nil r.checks a.1 (clamp01 a.2)] using hp
        rcases mem_setKey hmem with h1 | h2
        · exact hr.1 p h1
        · rw [h2]
          exact ⟨clamp01_nonneg a.2, clamp01_le_one a.2⟩
      refine ⟨hchecks, ?_, ?_⟩
      all_goals
        have hne : setKey r.checks a.1 (clamp01 a.2) ≠ [] := setKey_ne_nil _ _ _
        have hform : (r.add_check a.1 a.2).overall_score
            = (((r.add_check a.1 a.2).checks.map (fun p => p.2)).sum
                / ((r.add_check a.1 a.2).checks.length : ℚ)) := by
          simp [DataStructures.ValidationResult.add_check,
            DataStructures.ValidationResult.recalculateOverallScore, hne]
        have hlenpos : 0 < ((r.add_check a.1 a.2).checks.length : ℚ) := by
          have : (r.add_check a.1 a.2).checks ≠ [] := by
            simpa [DataStructures.ValidationResult.add_check,
              DataStructures.ValidationResult.recalculateOverallScore, hne] using hne
          have := List.length_pos.mpr this
          exact_mod_cast this
        have hsum0 : 0 ≤ ((r.add_check a.1 a.2).checks.map (fun p => p.2)).sum := by
          apply List.sum_nonneg
          intro x hx
          rcases List.mem_map.mp hx with ⟨p, hp, hpx⟩
          exact hpx ▸ (hchecks p hp).1
        have hsumle : ((r.add_check a.1 a.2).checks.map (fun p => p.2)).sum
            ≤ ((r.add_check a.1 a.2).checks.length : ℚ) := by
          have hle : ∀ x ∈ (r.add_check a.1 a.2).checks.map (fun p => p.2), x ≤ 1 := by
            intro x hx
            rcases List.mem_map.mp hx with ⟨p, hp, hpx⟩
            exact hpx ▸ (hchecks p hp).2
          calc ((r.add_check a.1 a.2).checks.map (fun p => p.2)).sum
              ≤ ((r.add_check a.1 a.2).checks.map (fun p => p.2)).length • (1 : ℚ) :=
                List.sum_le_card_nsmul _ 1 hle
            _ = ((r.add_check a.1 a.2).checks.length : ℚ) := by
                simp [nsmul_eq_mul]
      · rw [hform]
        positivity
      · rw [hform]
        rw [div_le_one hlenpos]
        exact hsumle

/-- **C10.**  For every response, processing context, and
`ValidationResult` whose checks were recorded via `add_check`, the
confidence calculator returns a value in `[0, 0.95]`: the base confidence
is at most `0.5 + 0.2 + 0.15 + 0.1 = 0.95` and is multiplied by an overall
score that is at most 1, so a confidence of exactly 1.0 is unattainable
despite the `min(..., 1.0)` cap. -/
theorem claim_C10_confidence_bounded {α : Type} (response : String)
    (ctx : QualityController.ProcessingContext α)
    (v : DataStructures.ValidationResult) (hv : builtByAddCheck v) :
    0 ≤ QualityController.calculateConfidence response ctx v
    ∧ QualityController.calculateConfidence response ctx v ≤ 0.95 := by
  rcases hv with ⟨adds, hadds⟩
  have hinv := validationResult_invariant adds {} (by constructor <;> simp)
  rw [← hadds] at hinv
  rcases hinv with ⟨-, hs0, hs1⟩
  unfold QualityController.calculateConfidence
  simp only [DataStructures.ValidationResult.get_overall_score]
  have hbase : ∀ b : ℚ, 0 ≤ b → b ≤ 0.95 →
      0 ≤ min (b * v.overall_score) 1 ∧ min (b * v.overall_score) 1 ≤ 0.95 := by
    intro b hb0 hb1
    constructor
    · exact le_min (mul_nonneg hb0 hs0) (by norm_num)
    · calc min (b * v.overall_score) 1 ≤ b * v.overall_score := min_le_left _ _
        _ ≤ b * 1 := by
            apply mul_le_mul_of_nonneg_left hs1 hb0
        _ = b := mul_one b
        _ ≤ 0.95 := hb1
  split <;> split <;> split <;>
    exact hbase _ (by norm_num) (by norm_num)

/-- Witness for C10 at a concrete validation result
(`basic_quality = 0.9` recorded via `add_check`) and a context with one
knowledge source. -/
theorem claim_C10_confidence_bounded_witness :
    0 ≤ QualityController.calculateConfidence "resp"
        ({ knowledge_sources := ["rag"] } : QualityController.ProcessingContext Unit)
        (({} : DataStructures.ValidationResult).add_check "basic_quality" 0.9)
    ∧ QualityController.calculateConfidence "resp"
        ({ knowledge_sources := ["rag"] } : QualityController.ProcessingContext Unit)
        (({} : DataStructures.ValidationResult).add_check "basic_quality" 0.9) ≤ 0.95 :=
  claim_C10_confidence_bounded "resp" _ _ ⟨[("basic_quality", 0.9)], rfl⟩

/-! ## Claim C5 — scheduler audit record -/

/-- **C5.**  The `InteractionData` audit record built by the scheduler has
`resource_consumption = 0.1 × stage_count × (1.3 if the route is parallel,
else 1)` and `cost_per_interaction = processing_time ×` the per-model-tier
rate of the route's model: 0.001 for the fast tier (`qwen-turbo`), 0.002
for the mid tier (`qwen-plus`), 0.005 for the high tier (`qwen-max`);
any other model string falls back to the 0.001 default of the
`cost_per_second` table. -/
theorem claim_C5_interaction_data_accounting {α : Type} (question : String)
    (classification : Scheduler.Classification) (route : Scheduler.RouteDict)
    (result : DataStructures.ProcessingResult α) (processing_time : ℚ) :
    ((Scheduler.createInteractionData question classification route result
        processing_time).resource_consumption
      = 0.1 * (route.stages.length : ℚ)
          * (if route.parallel_execution then 1.3 else 1))
    ∧ (route.model_preference = "qwen-turbo" →
        (Scheduler.createInteractionData question classification route result
          processing_time).cost_per_interaction = processing_time * 0.001)
    ∧ (route.model_preference = "qwen-plus" →
        (Scheduler.createInteractionData question classification route result
          processing_time).cost_per_interaction = processing_time * 0.002)
    ∧ (route.model_preference = "qwen-max" →
        (Scheduler.createInteractionData question classification route result
          processing_time).cost_per_interaction = processing_time * 0.005)
    ∧ (route.model_preference ∉ ["qwen-turbo", "qwen-plus", "qwen-max"] →
        (Scheduler.createInteractionData question classification route result
          processing_time).cost_per_interaction = processing_time * 0.001) := by
  refine ⟨?_, ?_, ?_, ?_, ?_⟩
  · simp only [Scheduler.createInteractionData, Scheduler.calculateResourceConsumption]
    split <;> ring
  · intro h
    simp only [Scheduler.createInteractionData, Scheduler.calculateCost,
      Scheduler.costPerSecond, h, String.reduceEq, if_false, if_true]
    ring
  · intro h
    simp only [Scheduler.createInteractionData, Scheduler.calculateCost,
      Scheduler.costPerSecond, h, String.reduceEq, if_false, if_true]
    ring
  · intro h
    simp only [Scheduler.createInteractionData, Scheduler.calculateCost,
      Scheduler.costPerSecond, h, String.reduceEq, if_false, if_true]
    ring
  · intro h
    have h1 : ¬ route.model_preference = "qwen-turbo" := by
      intro hc
      exact h (by simp [hc])
    have h2 : ¬ route.model_preference = "qwen-plus" := by
      intro hc
      exact h (by simp [hc])
    have h3 : ¬ route.model_preference = "qwen-max" := by
      intro hc
      exact h (by simp [hc])
    simp only [Scheduler.createInteractionData, Scheduler.calculateCost,
      Scheduler.costPerSecond]
    rw [if_neg h1, if_neg h2, if_neg h3]
    ring

/-- Witness for C5 at a concrete parallel two-stage route on the mid
tier. -/
theorem claim_C5_interaction_data_accounting_witness :
    ((Scheduler.createInteractionData "q" {} 
        { stages := ["preprocessing", "reasoning"], parallel_execution := true,
          model_preference := "qwen-plus" }
        ({} : DataStructures.ProcessingResult Unit) 4).resource_consumption
      = 0.1 * (2 : ℚ) * 1.3)
    ∧ ((Scheduler.createInteractionData "q" {}
        { stages := ["preprocessing", "reasoning"], parallel_execution := true,
          model_preference := "qwen-plus" }
        ({} : DataStructures.ProcessingResult Unit) 4).cost_per_interaction
      = 4 * 0.002) := by
  refine ⟨?_, ?_⟩
  · have h := (claim_C5_interaction_data_accounting (α := Unit) "q" {}
      { stages := ["preprocessing", "reasoning"], parallel_execution := true,
        model_preference := "qwen-plus" } {} 4).1
    simpa using h
  · exact (claim_C5_interaction_data_accounting (α := Unit) "q" {}
      { stages := ["preprocessing", "reasoning"], parallel_execution := true,
        model_preference := "qwen-plus" } {} 4).2.2.1 rfl

/-! ## Claim C7 — calculator unit conversion -/

/-- **C7.**  Converting 100 km to m yields exactly 100000; converting 32
fahrenheit to celsius yields exactly 0; and a conversion whose two units
are not found together in any one category table (length, weight,
temperature) produces the explicit unsupported-conversion error record
rather than a numeric value. -/
theorem claim_C7_calculator_unit_conversion :
    (Calculator.unitConversion 100 "km" "m"
      = Except.ok { converted_value := 100000, original_value := 100,
                    from_unit := "km", to_unit := "m", category := "length" })
    ∧ (Calculator.unitConversion 32 "fahrenheit" "celsius"
      = Except.ok { converted_value := 0, original_value := 32,
                    from_unit := "fahrenheit", to_unit := "celsius",
                    category := "temperature" })
    ∧ (∀ (value : ℚ) (from_unit to_unit : String),
        ¬ (hasKey Calculator.lengthFactors from_unit
            ∧ hasKey Calculator.lengthFactors to_unit) →
        ¬ (hasKey Calculator.weightFactors from_unit
            ∧ hasKey Calculator.weightFactors to_unit) →
        ¬ (from_unit ∈ Calculator.temperatureUnits
            ∧ to_unit ∈ Calculator.temperatureUnits) →
        Calculator.executeUnitConversion value from_unit to_unit
          = Calculator.ExecOutcome.error
              ("Unsupported unit conversion: " ++ from_unit ++ " to " ++ to_unit)) := by
  refine ⟨?_, ?_, ?_⟩
  · simp [Calculator.unitConversion, Calculator.lengthFactors, hasKey, lookupKey]
    norm_num
  · simp [Calculator.unitConversion, Calculator.lengthFactors,
      Calculator.weightFactors, Calculator.temperatureUnits,
      Calculator.temperatureConvert, hasKey, lookupKey]
  · intro value from_unit to_unit h1 h2 h3
    simp [Calculator.executeUnitConversion, Calculator.unitConversion, h1, h2, h3]

/-- Witness for C7's unsupported-conversion clause: km and fahrenheit
never share a category table. -/
theorem claim_C7_calculator_unit_conversion_witness :
    Calculator.executeUnitConversion 5 "km" "fahrenheit"
      = Calculator.ExecOutcome.error "Unsupported unit conversion: km to fahrenheit" :=
  claim_C7_calculator_unit_conversion.2.2 5 "km" "fahrenheit"
    (by simp [Calculator.lengthFactors, hasKey, lookupKey])
    (by simp [Calculator.weightFactors, hasKey, lookupKey])
    (by simp [Calculator.temperatureUnits])

/-! ## Claim C9 — ProcessingResult dict round trip -/

/-- **C9.**  `from_dict (to_dict r)` restores every field of a
`ProcessingResult`, and `from_dict` on a mapping with all fields missing
supplies the declared defaults (empty string, 0, false, empty collections,
absent error). -/
theorem claim_C9_processing_result_roundtrip {α : Type}
    (r : DataStructures.ProcessingResult α) :
    DataStructures.ProcessingResult.from_dict (DataStructures.ProcessingResult.to_dict r)
      = some r
    ∧ DataStructures.ProcessingResult.from_dict ([] : List (String × DataStructures.PVal α))
      = some ({} : DataStructures.ProcessingResult α) := by
  constructor
  · obtain ⟨resp, conf, succ, pt, ks, tr, vr, md, errs, err⟩ := r
    cases err <;>
      simp [DataStructures.ProcessingResult.to_dict,
        DataStructures.ProcessingResult.from_dict, DataStructures.getStrField,
        DataStructures.getRatField, DataStructures.getBoolField,
        DataStructures.getStrListField, DataStructures.getAssocField,
        DataStructures.getErrorField, lookupKey]
  · rfl

/-! ## Claim C1 — classifier strategy selection (code bug) -/

/-- **C1** (documents the code bug).  `classify_question` stores the whole
urgency-analysis dictionary in `analysis_result['urgency']`, and
`_determine_strategy` compares that dictionary against the string
`'high'` — a comparison that is constantly false in Python.  Hence, for
every analyzer outcome, the synthesized routing decision's strategy is
`comprehensive` when complexity ≥ 4, else `tool_assisted` when tools are
required, else `standard` — and it is never `fast_track`, even when the
urgency analysis reports level `high` and complexity ≤ 2, contradicting
both the claim and the repository's own
`test_urgent_question_classification` (which asserts
`result['urgency_level'] == 'high'` on the same routing dictionary). -/
theorem claim_C1_fast_track_unreachable (a : Classifier.AnalysisResult) :
    ((Classifier.synthesizeRoutingDecision a).recommended_strategy
      = (if a.complexity ≥ 4 then "comprehensive"
         else if a.tool_required then "tool_assisted"
         else "standard"))
    ∧ (Classifier.synthesizeRoutingDecision a).recommended_strategy ≠ "fast_track" := by
  have hstrat : (Classifier.synthesizeRoutingDecision a).recommended_strategy
      = (if a.complexity ≥ 4 then "comprehensive"
         else if a.tool_required then "tool_assisted"
         else "standard") := by
    simp [Classifier.synthesizeRoutingDecision, Classifier.determineStrategy,
      Classifier.pyDictEqStr]
  refine ⟨hstrat, ?_⟩
  rw [hstrat]
  split
  · simp
  · split <;> simp

/-! ## Claim C2 — pipeline happy path and unknown stage -/

/-- **C2.**  Executing the pipeline with stages
`[preprocessing, simple_reasoning, basic_validation]` on a non-empty
question succeeds with positive confidence and a response longer than 10
characters; executing it with a single unknown stage name fails, the
unknown name having appended an error to the state (rather than aborted
the sequence), so the recorded error list is non-empty.  Both parts hold
for every instantiation `other` of the stages this route never reaches. -/
theorem claim_C2_pipeline_execution
    (other : String → Pipeline.PipelineState → Pipeline.PipelineState)
    (question : String) (ctx : List (String × Pipeline.AnyVal)) (t0 t1 : ℚ) :
    (question ≠ "" →
      ((Pipeline.executePipeline other question
          ⟨["preprocessing", "simple_reasoning", "basic_validation"]⟩ ctx t0 t1).success
          = true
        ∧ (Pipeline.executePipeline other question
            ⟨["preprocessing", "simple_reasoning", "basic_validation"]⟩ ctx t0 t1).confidence
          > 0
        ∧ (Pipeline.executePipeline other question
            ⟨["preprocessing", "simple_reasoning", "basic_validation"]⟩ ctx t0 t1).response.length
          > 10))
    ∧ (∀ stage_name : String,
        stage_name ∉ (Pipeline.stageProcessors other).map Prod.fst →
        ((Pipeline.executePipeline other question ⟨[stage_name]⟩ ctx t0 t1).success = false
          ∧ (Pipeline.executePipeline other question ⟨[stage_name]⟩ ctx t0 t1).errors
            = ["Unknown stage: " ++ stage_name])) := by
  constructor
  · intro _hq
    have h11 : ("基于简单推理的回答: " : String).length = 11 := by decide
    have hlen : (("基于简单推理的回答: " : String) ++ question.trim).length
        = 11 + question.trim.length := by
      rw [String.length_append, h11]
    have hne : ¬ (("基于简单推理的回答: " : String) ++ question.trim) = "" := by
      intro hcon
      have := congrArg String.length hcon
      rw [hlen] at this
      simp at this
    have hlt : 10 < 11 + question.trim.length := by omega
    refine ⟨?_, ?_, ?_⟩ <;>
      simp [Pipeline.executePipeline, Pipeline.stageProcessors, lookupKey,
        Pipeline.preprocessingProcess, Pipeline.simpleReasoningProcess,
        Pipeline.basicValidationProcess, Pipeline.PipelineState.add_metadata,
        Pipeline.PipelineState.set_response, Pipeline.PipelineState.set_confidence,
        Pipeline.PipelineState.add_validation_result,
        Pipeline.PipelineState.get_final_result, hne, hlen, hlt, clamp01] <;>
      norm_num
  · intro stage_name hnot
    have hlk : lookupKey (Pipeline.stageProcessors other) stage_name = none :=
      lookupKey_eq_none_of_not_mem hnot
    constructor <;>
      simp [Pipeline.executePipeline, hlk, Pipeline.PipelineState.add_error,
        Pipeline.PipelineState.get_final_result]

/-- Witness for C2 at the concrete question `"你好"`, identity fillers for
the unreached stages, and the unknown stage name `"bogus"`. -/
theorem claim_C2_pipeline_execution_witness :
    ((Pipeline.executePipeline (fun _ st => st) "你好"
        ⟨["preprocessing", "simple_reasoning", "basic_validation"]⟩ [] 0 1).success = true
      ∧ (Pipeline.executePipeline (fun _ st => st) "你好"
          ⟨["preprocessing", "simple_reasoning", "basic_validation"]⟩ [] 0 1).confidence > 0
      ∧ (Pipeline.executePipeline (fun _ st => st) "你好"
          ⟨["preprocessing", "simple_reasoning", "basic_validation"]⟩ [] 0 1).response.length
        > 10)
    ∧ ((Pipeline.executePipeline (fun _ st => st) "你好" ⟨["bogus"]⟩ [] 0 1).success = false
      ∧ (Pipeline.executePipeline (fun _ st => st) "你好" ⟨["bogus"]⟩ [] 0 1).errors
        = ["Unknown stage: bogus"]) :=
  ⟨(claim_C2_pipeline_execution (fun _ st => st) "你好" [] 0 1).1 (by decide),
   (claim_C2_pipeline_execution (fun _ st => st) "你好" [] 0 1).2 "bogus" (by decide)⟩

/-! ## Claim C4 — memory-cache TTL (corrected) -/

/-- **C4 counterexample.**  Setting a key with TTL 0 does *not* make it
absent on the next `get`: `ttl = ttl or self.default_ttl` treats the falsy
`0` as "unset", substitutes the default TTL (3600 here), and the get one
time unit later still returns the value. -/
theorem claim_C4_ttl_zero_counterexample :
    ((({ max_size := 100, default_ttl := 3600 } : Cache.MemoryCache String).set 0 "k" "v"
        (some 0)).get 1 "k").1 = some "v" := by
  simp [Cache.MemoryCache.set, Cache.MemoryCache.get, Cache.MemoryCache.isExpired,
    Cache.MemoryCache.evictLRU, hasKey, lookupKey, setKey]

/-- **C4 as amended.**  Setting a key with a *negative* TTL (a past
expiry) makes it absent on the next `get`, the expired entry being lazily
deleted by that `get`; more generally any entry that is expired at access
time is reported absent and removed from the cache; and a TTL of 0 is
falsy in `ttl = ttl or self.default_ttl`, so the entry is stored with the
default TTL instead of an immediate expiry. -/
theorem claim_C4_expiry_amended {V : Type} (mc : Cache.MemoryCache V)
    (t0 t1 : ℚ) (k : String) (v : V) (ttl : ℚ) (httl : ttl < 0) (ht : t0 ≤ t1) :
    ((((mc.set t0 k v (some ttl)).get t1 k).1 = none
      ∧ lookupKey (((mc.set t0 k v (some ttl)).get t1 k).2).cache k = none)
    ∧ (∀ (mc' : Cache.MemoryCache V) (now : ℚ) (key : String),
        mc'.isExpired now key = true →
        ((mc'.get now key).1 = none
          ∧ lookupKey ((mc'.get now key).2).cache key = none))
    ∧ lookupKey (mc.set t0 k v (some 0)).expiry_times k = some (t0 + mc.default_ttl)) := by
  refine ⟨?_, ?_, ?_⟩
  · have httlne : ¬ ttl = 0 := ne_of_lt httl
    have hexp : lookupKey (mc.set t0 k v (some ttl)).expiry_times k = some (t0 + ttl) := by
      simp [Cache.MemoryCache.set, httlne, lookupKey_setKey_self]
    have hcache : lookupKey (mc.set t0 k v (some ttl)).cache k = some v := by
      simp [Cache.MemoryCache.set, lookupKey_setKey_self]
    have hexpired : (mc.set t0 k v (some ttl)).isExpired t1 k = true := by
      rw [Cache.MemoryCache.isExpired, hexp]
      simp only [decide_eq_true_eq]
      linarith
    constructor
    · simp [Cache.MemoryCache.get, hcache, hexpired, Cache.MemoryCache.delete,
        hasKey]
    · simp [Cache.MemoryCache.get, hcache, hexpired, Cache.MemoryCache.delete,
        hasKey, lookupKey_delKey_self]
  · intro mc' now key hexp
    rcases hc : lookupKey mc'.cache key with _ | v'
    · constructor
      · simp [Cache.MemoryCache.get, hc]
      · simp [Cache.MemoryCache.get, hc]
    · constructor
      · simp [Cache.MemoryCache.get, hc, hexp, Cache.MemoryCache.delete, hasKey]
      · simp [Cache.MemoryCache.get, hc, hexp, Cache.MemoryCache.delete, hasKey,
          lookupKey_delKey_self]
  · have hdttl : ∀ mcx : Cache.MemoryCache V,
        (if mcx.max_size ≤ mcx.cache.length ∧ hasKey mcx.cache k = false
         then mcx.evictLRU else mcx).default_ttl = mcx.default_ttl := by
      intro mcx
      split
      · rw [Cache.MemoryCache.evictLRU]
        rcases Cache.argminKey mcx.access_times with _ | p
        · rfl
        · simp only [Cache.MemoryCache.delete]
          split <;> rfl
      · rfl
    simp [Cache.MemoryCache.set, lookupKey_setKey_self, hdttl]

/-- Witness for the amended C4 on a concrete cache: TTL `-1` at time 0,
read back at time 0. -/
theorem claim_C4_expiry_amended_witness :
    ((({ max_size := 100, default_ttl := 3600 } : Cache.MemoryCache String).set 0 "k" "v"
        (some (-1))).get 0 "k").1 = none
    ∧ lookupKey ((({ max_size := 100, default_ttl := 3600 } :
          Cache.MemoryCache String).set 0 "k" "v"
        (some (-1))).get 0 "k").2.cache "k" = none := by
  have h := (claim_C4_expiry_amended
    ({ max_size := 100, default_ttl := 3600 } : Cache.MemoryCache String)
    0 0 "k" "v" (-1) (by norm_num) (le_refl 0)).1
  exact h

/-! ## Claim C8 — ProcessingRoute.copy independence -/

theorem applyOp_getList_ne {V : Type} (σ : RouteHeap.Store V)
    (r : RouteHeap.ProcessingRoute) (op : RouteHeap.RouteOp V) {i : Nat}
    (hi : i ≠ r.stagesId) :
    (RouteHeap.applyOp σ r op).getList i = σ.getList i := by
  cases op with
  | addStage s =>
      simp only [RouteHeap.applyOp, RouteHeap.add_stage]
      split
      · rfl
      · simp [RouteHeap.Store.getList, RouteHeap.Store.setList,
          lookupKey_setKey_ne _ _ hi]
  | removeStage s =>
      simp only [RouteHeap.applyOp, RouteHeap.remove_stage]
      split
      · simp [RouteHeap.Store.getList, RouteHeap.Store.setList,
          lookupKey_setKey_ne _ _ hi]
      · rfl
  | addContext k v =>
      simp [RouteHeap.applyOp, RouteHeap.add_context, RouteHeap.Store.getList,
        RouteHeap.Store.setDict]

theorem applyOp_getDict_ne {V : Type} (σ : RouteHeap.Store V)
    (r : RouteHeap.ProcessingRoute) (op : RouteHeap.RouteOp V) {i : Nat}
    (hi : i ≠ r.contextId) :
    (RouteHeap.applyOp σ r op).getDict i = σ.getDict i := by
  cases op with
  | addStage s =>
      simp only [RouteHeap.applyOp, RouteHeap.add_stage]
      split
      · rfl
      · simp [RouteHeap.Store.getDict, RouteHeap.Store.setList]
  | removeStage s =>
      simp only [RouteHeap.applyOp, RouteHeap.remove_stage]
      split
      · simp [RouteHeap.Store.getDict, RouteHeap.Store.setList]
      · rfl
  | addContext k v =>
      simp [RouteHeap.applyOp, RouteHeap.add_context, RouteHeap.Store.getDict,
        RouteHeap.Store.setDict, lookupKey_setKey_ne _ _ hi]

theorem applyOps_frame {V : Type} (ops : List (RouteHeap.RouteOp V))
    (σ : RouteHeap.Store V) (r : RouteHeap.ProcessingRoute) {i j : Nat}
    (hi : i ≠ r.stagesId) (hj : j ≠ r.contextId) :
    (RouteHeap.applyOps σ r ops).getList i = σ.getList i
    ∧ (RouteHeap.applyOps σ r ops).getDict j = σ.getDict j := by
  induction ops generalizing σ with
  | nil => exact ⟨rfl, rfl⟩
  | cons op rest ih =>
      rcases ih (RouteHeap.applyOp σ r op) with ⟨h1, h2⟩
      exact ⟨h1.trans (applyOp_getList_ne σ r op hi),
             h2.trans (applyOp_getDict_ne σ r op hj)⟩

/-- **C8.**  `ProcessingRoute.copy` yields a route independent of the
original: the copy points at fresh stage-list and context objects holding
the same contents, and any sequence of `add_stage` / `remove_stage` /
`add_context` mutations performed through the copy leaves the original
route's stage list and context (and, being record fields, its timeout,
parallelism flag and model preference) unchanged — and vice versa, so a
shared route template is never mutated by specializing a copy of it. -/
theorem claim_C8_route_copy_independence {V : Type} (σ : RouteHeap.Store V)
    (r : RouteHeap.ProcessingRoute) (_hwf : σ.WF) (hr : RouteHeap.validRef σ r) :
    ((RouteHeap.copyRoute σ r).2.stagesId ≠ r.stagesId
      ∧ (RouteHeap.copyRoute σ r).2.contextId ≠ r.contextId)
    ∧ ((RouteHeap.copyRoute σ r).2.parallel_execution = r.parallel_execution
      ∧ (RouteHeap.copyRoute σ r).2.timeout = r.timeout
      ∧ (RouteHeap.copyRoute σ r).2.model_preference = r.model_preference)
    ∧ ((RouteHeap.copyRoute σ r).1.getList (RouteHeap.copyRoute σ r).2.stagesId
        = σ.getList r.stagesId
      ∧ (RouteHeap.copyRoute σ r).1.getDict (RouteHeap.copyRoute σ r).2.contextId
        = σ.getDict r.contextId)
    ∧ ((RouteHeap.copyRoute σ r).1.getList r.stagesId = σ.getList r.stagesId
      ∧ (RouteHeap.copyRoute σ r).1.getDict r.contextId = σ.getDict r.contextId)
    ∧ (∀ ops : List (RouteHeap.RouteOp V),
        (RouteHeap.applyOps (RouteHeap.copyRoute σ r).1 (RouteHeap.copyRoute σ r).2
            ops).getList r.stagesId = σ.getList r.stagesId
        ∧ (RouteHeap.applyOps (RouteHeap.copyRoute σ r).1 (RouteHeap.copyRoute σ r).2
            ops).getDict r.contextId = σ.getDict r.contextId)
    ∧ (∀ ops : List (RouteHeap.RouteOp V),
        (RouteHeap.applyOps (RouteHeap.copyRoute σ r).1 r ops).getList
            (RouteHeap.copyRoute σ r).2.stagesId
          = σ.getList r.stagesId
        ∧ (RouteHeap.applyOps (RouteHeap.copyRoute σ r).1 r ops).getDict
            (RouteHeap.copyRoute σ r).2.contextId
          = σ.getDict r.contextId) := by
  have hsid : r.stagesId ≠ σ.nextId := Nat.ne_of_lt hr.1
  have hcid : r.contextId ≠ σ.nextId + 1 := Nat.ne_of_lt (Nat.lt_succ_of_lt hr.2)
  have hsid2 : σ.nextId ≠ r.stagesId := fun h => hsid h.symm
  have hcid2 : σ.nextId + 1 ≠ r.contextId := fun h => hcid h.symm
  have hceq : (RouteHeap.copyRoute σ r).2.stagesId = σ.nextId := rfl
  have hceqc : (RouteHeap.copyRoute σ r).2.contextId = σ.nextId + 1 := rfl
  have hcopyList : (RouteHeap.copyRoute σ r).1.getList (σ.nextId)
      = σ.getList r.stagesId := by
    simp [RouteHeap.copyRoute, RouteHeap.Store.getList, lookupKey_setKey_self]
  have hcopyDict : (RouteHeap.copyRoute σ r).1.getDict (σ.nextId + 1)
      = σ.getDict r.contextId := by
    simp [RouteHeap.copyRoute, RouteHeap.Store.getDict, lookupKey_setKey_self]
  have horigList : (RouteHeap.copyRoute σ r).1.getList r.stagesId
      = σ.getList r.stagesId := by
    simp [RouteHeap.copyRoute, RouteHeap.Store.getList,
      lookupKey_setKey_ne _ _ hsid]
  have horigDict : (RouteHeap.copyRoute σ r).1.getDict r.contextId
      = σ.getDict r.contextId := by
    simp [RouteHeap.copyRoute, RouteHeap.Store.getDict,
      lookupKey_setKey_ne _ _ hcid]
  refine ⟨⟨hsid2, hcid2⟩, ⟨rfl, rfl, rfl⟩, ⟨hcopyList, hcopyDict⟩,
    ⟨horigList, horigDict⟩, ?_, ?_⟩
  · intro ops
    have hfr := applyOps_frame ops (RouteHeap.copyRoute σ r).1
      (RouteHeap.copyRoute σ r).2 (i := r.stagesId) (j := r.contextId) hsid hcid
    exact ⟨hfr.1.trans horigList, hfr.2.trans horigDict⟩
  · intro ops
    have hfr := applyOps_frame ops (RouteHeap.copyRoute σ r).1 r
      (i := (RouteHeap.copyRoute σ r).2.stagesId)
      (j := (RouteHeap.copyRoute σ r).2.contextId) (by rw [hceq]; exact hsid2)
      (by rw [hceqc]; exact hcid2)
    exact ⟨hfr.1.trans (hceq ▸ hcopyList), hfr.2.trans (hceqc ▸ hcopyDict)⟩

/-- Witness for C8 on a concrete one-route store, mutating the copy with
an added stage, a removed stage and a context entry. -/
theorem claim_C8_route_copy_independence_witness :
    (RouteHeap.applyOps
        (RouteHeap.copyRoute
          ({ lists := [(0, ["preprocessing", "reasoning"])],
             dicts := [(0, [("a", "x")])], nextId := 1 } : RouteHeap.Store String)
          { stagesId := 0, contextId := 0 }).1
        (RouteHeap.copyRoute
          ({ lists := [(0, ["preprocessing", "reasoning"])],
             dicts := [(0, [("a", "x")])], nextId := 1 } : RouteHeap.Store String)
          { stagesId := 0, contextId := 0 }).2
        [RouteHeap.RouteOp.addStage "fact_checking",
         RouteHeap.RouteOp.removeStage "reasoning",
         RouteHeap.RouteOp.addContext "b" "y"]).getList 0
      = ({ lists := [(0, ["preprocessing", "reasoning"])],
           dicts := [(0, [("a", "x")])], nextId := 1 } : RouteHeap.Store String).getList 0
    ∧ (RouteHeap.applyOps
        (RouteHeap.copyRoute
          ({ lists := [(0, ["preprocessing", "reasoning"])],
             dicts := [(0, [("a", "x")])], nextId := 1 } : RouteHeap.Store String)
          { stagesId := 0, contextId := 0 }).1
        (RouteHeap.copyRoute
          ({ lists := [(0, ["preprocessing", "reasoning"])],
             dicts := [(0, [("a", "x")])], nextId := 1 } : RouteHeap.Store String)
          { stagesId := 0, contextId := 0 }).2
        [RouteHeap.RouteOp.addStage "fact_checking",
         RouteHeap.RouteOp.removeStage "reasoning",
         RouteHeap.RouteOp.addContext "b" "y"]).getDict 0
      = ({ lists := [(0, ["preprocessing", "reasoning"])],
           dicts := [(0, [("a", "x")])], nextId := 1 } : RouteHeap.Store String).getDict 0 :=
  (claim_C8_route_copy_independence
    ({ lists := [(0, ["preprocessing", "reasoning"])],
       dicts := [(0, [("a", "x")])], nextId := 1 } : RouteHeap.Store String)
    { stagesId := 0, contextId := 0 }
    (by constructor <;> simp) (by constructor <;> simp [RouteHeap.validRef])).2.2.2.2.1
    [RouteHeap.RouteOp.addStage "fact_checking",
     RouteHeap.RouteOp.removeStage "reasoning",
     RouteHeap.RouteOp.addContext "b" "y"]

/-! ## Claim C6 — web_search scheduled before calculator -/

theorem lookupKey_mem {κ β : Type} [DecidableEq κ] {l : List (κ × β)} {k : κ} {v : β}
    (h : lookupKey l k = some v) : (k, v) ∈ l := by
  induction l with
  | nil => simp [lookupKey] at h
  | cons p rest ih =>
      obtain ⟨k₀, v₀⟩ := p
      by_cases hk : k₀ = k
      · subst hk
        simp [lookupKey] at h
        subst h
        exact List.mem_cons_self _ _
      · simp only [lookupKey] at h
        rw [if_neg hk] at h
        exact List.mem_cons_of_mem _ (ih h)

theorem keys_setKey_subset {κ β : Type} [DecidableEq κ] {l : List (κ × β)} {k x : κ}
    {v : β} (hx : x ∈ (setKey l k v).map Prod.fst) : x ∈ l.map Prod.fst ∨ x = k := by
  induction l with
  | nil => simpa [setKey] using hx
  | cons p rest ih =>
      obtain ⟨k₀, v₀⟩ := p
      by_cases hk : k₀ = k
      · subst hk
        rw [show setKey ((k₀, v₀) :: rest) k₀ v = (k₀, v) :: rest from by
          simp [setKey]] at hx
        rw [List.map_cons] at hx
        rcases List.mem_cons.mp hx with h1 | h2
        · exact Or.inr h1
        · exact Or.inl (by rw [List.map_cons]; exact List.mem_cons_of_mem _ h2)
      · simp only [setKey] at hx
        rw [if_neg hk] at hx
        rw [List.map_cons] at hx
        rcases List.mem_cons.mp hx with h1 | h2
        · exact Or.inl (by rw [List.map_cons, h1]; exact List.mem_cons_self _ _)
        · rcases ih h2 with h3 | h4
          · exact Or.inl (by rw [List.map_cons]; exact List.mem_cons_of_mem _ h3)
          · exact Or.inr h4

theorem keys_setKey_nodup {κ β : Type} [DecidableEq κ] {l : List (κ × β)} (k : κ) (v : β)
    (hl : (l.map Prod.fst).Nodup) : ((setKey l k v).map Prod.fst).Nodup := by
  induction l with
  | nil => simp [setKey]
  | cons p rest ih =>
      obtain ⟨k₀, v₀⟩ := p
      simp only [List.map_cons, List.nodup_cons] at hl
      by_cases hk : k₀ = k
      · subst hk
        simpa [setKey, List.nodup_cons] using hl
      · simp only [setKey, if_neg hk, List.map_cons, List.nodup_cons]
        refine ⟨?_, ih hl.2⟩
        intro hmem
        rcases keys_setKey_subset hmem with h1 | h2
        · exact hl.1 h1
        · exact hk h2

theorem hasKey_setKey_self {κ β : Type} [DecidableEq κ] (l : List (κ × β)) (k : κ)
    (v : β) : hasKey (setKey l k v) k = true := by
  simp [hasKey, lookupKey_setKey_self]

theorem hasKey_setKey_mono {κ β : Type} [DecidableEq κ] {l : List (κ × β)} {k' : κ}
    (k : κ) (v : β) (h : hasKey l k' = true) : hasKey (setKey l k v) k' = true := by
  by_cases hk : k' = k
  · subst hk
    exact hasKey_setKey_self l k' v
  · simpa [hasKey, lookupKey_setKey_ne _ _ hk] using h

theorem scan_fold_mem (cond : String → Bool) (l : List String) :
    ∀ (g0 : List String) (x : String),
    x ∈ l.foldl (fun g t => if cond t && g.length < 3 then g ++ [t] else g) g0 →
    x ∈ g0 ∨ (x ∈ l ∧ cond x = true) := by
  induction l with
  | nil =>
      intro g0 x hx
      exact Or.inl hx
  | cons b bs ih =>
      intro g0 x hx
      rw [List.foldl_cons] at hx
      rcases ih _ x hx with hg | ⟨hl, hc⟩
      · by_cases hb : (cond b && g0.length < 3) = true
        · rw [if_pos hb] at hg
          rcases List.mem_append.mp hg with h1 | h2
          · exact Or.inl h1
          · have hxb : x = b := by simpa using h2
            subst hxb
            rw [Bool.and_eq_true] at hb
            exact Or.inr ⟨List.mem_cons_self _ _, hb.1⟩
        · rw [if_neg hb] at hg
          exact Or.inl hg
      · exact Or.inr ⟨List.mem_cons_of_mem _ hl, hc⟩

theorem scan_fold_ne_nil (cond : String → Bool) (l : List String) :
    ∀ (g0 : List String), ((∃ x ∈ l, cond x = true) ∨ g0 ≠ []) →
    l.foldl (fun g t => if cond t && g.length < 3 then g ++ [t] else g) g0 ≠ [] := by
  induction l with
  | nil =>
      intro g0 h
      rcases h with ⟨x, hx, _⟩ | h
      · simp at hx
      · exact h
  | cons b bs ih =>
      intro g0 h
      rw [List.foldl_cons]
      by_cases hg0 : g0 = []
      · subst hg0
        rcases h with ⟨x, hx, hc⟩ | h
        · rcases List.mem_cons.mp hx with hxb | hxbs
          · subst hxb
            apply ih
            right
            rw [if_pos (by simp [hc])]
            simp
          · exact ih _ (Or.inl ⟨x, hxbs, hc⟩)
        · exact absurd rfl h
      · apply ih
        right
        by_cases hb : (cond b && g0.length < 3) = true
        · rw [if_pos hb]
          simp [hg0]
        · rw [if_neg hb]
          exact hg0

theorem passGroup_ne_nil (depsOf : String → List String) (remaining : List String)
    (h : remaining ≠ []) : Orchestrator.passGroup depsOf remaining ≠ [] := by
  rw [Orchestrator.passGroup]
  split
  · rcases remaining with _ | ⟨a, rest⟩
    · exact absurd rfl h
    · simp
  · rename_i hsc
    exact fun hcon => hsc (by simp [Orchestrator.scanPass] at hcon ⊢; simp [hcon])

theorem passGroup_subset (depsOf : String → List String) (remaining : List String)
    {x : String} (hx : x ∈ Orchestrator.passGroup depsOf remaining) : x ∈ remaining := by
  rw [Orchestrator.passGroup] at hx
  split at hx
  · rcases remaining with _ | ⟨a, rest⟩
    · simpa using hx
    · have : x = a := by simpa [List.take] using hx
      subst this
      exact List.mem_cons_self _ _
  · rcases scan_fold_mem _ remaining [] x hx with h1 | ⟨h2, _⟩
    · simp at h1
    · exact h2

theorem calculator_not_in_passGroup (depsOf : String → List String)
    (remaining : List String) {c w : String} (hd : w ∈ depsOf c) (hw : w ∈ remaining)
    (hwdeps : depsOf w = []) : c ∉ Orchestrator.passGroup depsOf remaining := by
  intro hc
  have hscan : Orchestrator.scanPass depsOf remaining ≠ [] := by
    apply scan_fold_ne_nil _ remaining []
    left
    exact ⟨w, hw, by simp [hwdeps]⟩
  rw [Orchestrator.passGroup] at hc
  rw [if_neg (by simpa using hscan)] at hc
  rcases scan_fold_mem _ remaining [] c hc with h1 | ⟨_, hcond⟩
  · simp at h1
  · have := (List.all_eq_true.mp hcond) w hd
    simp at this
    exact this hw

theorem removeGroup_subset (group : List String) :
    ∀ (remaining : List String) {x : String},
    x ∈ Orchestrator.removeGroup remaining group → x ∈ remaining := by
  induction group with
  | nil =>
      intro remaining x hx
      exact hx
  | cons a g ih =>
      intro remaining x hx
      exact List.mem_of_mem_erase (ih (remaining.erase a) hx)

theorem removeGroup_mem_of_not_mem (group : List String) :
    ∀ (remaining : List String) {x : String}, x ∈ remaining → x ∉ group →
    x ∈ Orchestrator.removeGroup remaining group := by
  induction group with
  | nil =>
      intro remaining x hx _
      exact hx
  | cons a g ih =>
      intro remaining x hx hng
      have hxa : x ≠ a := fun h => hng (h ▸ List.mem_cons_self _ _)
      exact ih (remaining.erase a) ((List.mem_erase_of_ne hxa).mpr hx)
        (fun h => hng (List.mem_cons_of_mem _ h))

theorem removeGroup_not_mem (group : List String) :
    ∀ (remaining : List String) {x : String}, remaining.Nodup → x ∈ group →
    x ∉ Orchestrator.removeGroup remaining group := by
  induction group with
  | nil =>
      intro remaining x _ hx
      simp at hx
  | cons a g ih =>
      intro remaining x hnd hx hcon
      rcases List.mem_cons.mp hx with hxa | hxg
      · subst hxa
        exact hnd.not_mem_erase (removeGroup_subset g (remaining.erase x) hcon)
      · exact ih (remaining.erase a) (hnd.erase a) hxg hcon

theorem removeGroup_nodup (group : List String) :
    ∀ (remaining : List String), remaining.Nodup →
    (Orchestrator.removeGroup remaining group).Nodup := by
  induction group with
  | nil =>
      intro remaining h
      exact h
  | cons a g ih =>
      intro remaining h
      exact ih (remaining.erase a) (h.erase a)

theorem removeGroup_length_le (group : List String) :
    ∀ (remaining : List String),
    (Orchestrator.removeGroup remaining group).length ≤ remaining.length := by
  induction group with
  | nil =>
      intro remaining
      exact le_refl _
  | cons a g ih =>
      intro remaining
      exact le_trans (ih (remaining.erase a)) (List.length_erase_le a remaining)

theorem removeGroup_length_lt {group : List String} (remaining : List String)
    (hne : group ≠ []) (hsub : ∀ y ∈ group, y ∈ remaining) :
    (Orchestrator.removeGroup remaining group).length < remaining.length := by
  rcases group with _ | ⟨a, g⟩
  · exact absurd rfl hne
  · have ha : a ∈ remaining := hsub a (List.mem_cons_self _ _)
    have h1 : (Orchestrator.removeGroup (remaining.erase a) g).length
        ≤ (remaining.erase a).length := removeGroup_length_le g _
    have h2 : (remaining.erase a).length = remaining.length - 1 :=
      List.length_erase_of_mem ha
    have h3 : 0 < remaining.length := List.length_pos.mpr (List.ne_nil_of_mem ha)
    have : Orchestrator.removeGroup remaining (a :: g)
        = Orchestrator.removeGroup (remaining.erase a) g := rfl
    rw [this]
    omega

theorem groupsLoop_cons (depsOf : String → List String) (fuel : Nat) (a : String)
    (rest : List String) :
    Orchestrator.groupsLoop depsOf (fuel + 1) (a :: rest)
      = Orchestrator.passGroup depsOf (a :: rest)
        :: Orchestrator.groupsLoop depsOf fuel
            (Orchestrator.removeGroup (a :: rest)
              (Orchestrator.passGroup depsOf (a :: rest))) := rfl

theorem groupsLoop_subset (fuel : Nat) (depsOf : String → List String) :
    ∀ (remaining : List String) {i : Nat} {x : String},
    x ∈ (Orchestrator.groupsLoop depsOf fuel remaining).getD i [] → x ∈ remaining := by
  induction fuel with
  | zero =>
      intro remaining i x hx
      simp [Orchestrator.groupsLoop] at hx
  | succ fuel ih =>
      intro remaining i x hx
      rcases remaining with _ | ⟨a, rest⟩
      · simp [Orchestrator.groupsLoop] at hx
      · rw [groupsLoop_cons] at hx
        rcases i with _ | i'
        · exact passGroup_subset depsOf _ (by simpa using hx)
        · have hx' : x ∈ (Orchestrator.groupsLoop depsOf fuel
              (Orchestrator.removeGroup (a :: rest)
                (Orchestrator.passGroup depsOf (a :: rest)))).getD i' [] := by
            simpa using hx
          exact removeGroup_subset _ _ (ih _ hx')

theorem groupsLoop_cover (fuel : Nat) (depsOf : String → List String) :
    ∀ (remaining : List String), remaining.length ≤ fuel →
    ∀ x ∈ remaining, ∃ i, x ∈ (Orchestrator.groupsLoop depsOf fuel remaining).getD i [] := by
  induction fuel with
  | zero =>
      intro remaining hlen x hx
      have : remaining = [] := List.length_eq_zero.mp (Nat.le_zero.mp hlen)
      subst this
      simp at hx
  | succ fuel ih =>
      intro remaining hlen x hx
      rcases remaining with _ | ⟨a, rest⟩
      · simp at hx
      · rw [groupsLoop_cons]
        by_cases hxg : x ∈ Orchestrator.passGroup depsOf (a :: rest)
        · exact ⟨0, by simpa using hxg⟩
        · have hx' : x ∈ Orchestrator.removeGroup (a :: rest)
              (Orchestrator.passGroup depsOf (a :: rest)) :=
            removeGroup_mem_of_not_mem _ _ hx hxg
          have hlt : (Orchestrator.removeGroup (a :: rest)
              (Orchestrator.passGroup depsOf (a :: rest))).length < (a :: rest).length :=
            removeGroup_length_lt _ (passGroup_ne_nil depsOf _ (by simp))
              (fun y hy => passGroup_subset depsOf _ hy)
          rcases ih _ (by omega) x hx' with ⟨i, hi⟩
          exact ⟨i + 1, by simpa using hi⟩

theorem groupsLoop_web_before_calc (w c : String) (depsOf : String → List String)
    (hd : w ∈ depsOf c) (hwdeps : depsOf w = []) :
    ∀ (fuel : Nat) (remaining : List String), remaining.length ≤ fuel →
    remaining.Nodup → w ∈ remaining → c ∈ remaining →
    ∀ i j, w ∈ (Orchestrator.groupsLoop depsOf fuel remaining).getD i [] →
      c ∈ (Orchestrator.groupsLoop depsOf fuel remaining).getD j [] → i < j := by
  intro fuel
  induction fuel with
  | zero =>
      intro remaining hlen _ hw _ i j _ _
      have : remaining = [] := List.length_eq_zero.mp (Nat.le_zero.mp hlen)
      subst this
      simp at hw
  | succ fuel ih =>
      intro remaining hlen hnd hw hc i j hi hj
      rcases remaining with _ | ⟨a, rest⟩
      · simp at hw
      · rw [groupsLoop_cons] at hi hj
        have hcng : c ∉ Orchestrator.passGroup depsOf (a :: rest) :=
          calculator_not_in_passGroup depsOf _ hd hw hwdeps
        by_cases hwg : w ∈ Orchestrator.passGroup depsOf (a :: rest)
        · have hwR : w ∉ Orchestrator.removeGroup (a :: rest)
              (Orchestrator.passGroup depsOf (a :: rest)) :=
            removeGroup_not_mem _ _ hnd hwg
          rcases j with _ | j'
          · exact absurd (by simpa using hj) hcng
          · rcases i with _ | i'
            · omega
            · exact absurd (groupsLoop_subset fuel depsOf _ (by simpa using hi)) hwR
        · have hwR : w ∈ Orchestrator.removeGroup (a :: rest)
              (Orchestrator.passGroup depsOf (a :: rest)) :=
            removeGroup_mem_of_not_mem _ _ hw hwg
          have hcR : c ∈ Orchestrator.removeGroup (a :: rest)
              (Orchestrator.passGroup depsOf (a :: rest)) :=
            removeGroup_mem_of_not_mem _ _ hc hcng
          have hlt : (Orchestrator.removeGroup (a :: rest)
              (Orchestrator.passGroup depsOf (a :: rest))).length < (a :: rest).length :=
            removeGroup_length_lt _ (passGroup_ne_nil depsOf _ (by simp))
              (fun y hy => passGroup_subset depsOf _ hy)
          rcases i with _ | i'
          · exact absurd (by simpa using hi) hwg
          · rcases j with _ | j'
            · exact absurd (by simpa using hj) hcng
            · have := ih _ (by omega)
                (removeGroup_nodup _ _ hnd) hwR hcR i' j'
                (by simpa using hi) (by simpa using hj)
              omega

theorem topoLoop_eq_ready_empty (graph : List (String × List String))
    (hg : ¬ graph.isEmpty = true)
    (hr : ((graph.filter (fun p => p.2.isEmpty)).map (fun p => p.1)).isEmpty = true) :
    Orchestrator.topoLoop graph = graph.map (fun p => p.1) := by
  rw [Orchestrator.topoLoop, dif_neg hg]
  exact dif_pos hr

theorem topoLoop_eq_step (graph : List (String × List String))
    (hg : ¬ graph.isEmpty = true)
    (hr : ¬ ((graph.filter (fun p => p.2.isEmpty)).map (fun p => p.1)).isEmpty = true) :
    Orchestrator.topoLoop graph
      = ((graph.filter (fun p => p.2.isEmpty)).map (fun p => p.1))
        ++ Orchestrator.topoLoop ((graph.filter (fun p => !p.2.isEmpty)).map
            (fun p => (p.1,
              ((graph.filter (fun p => p.2.isEmpty)).map (fun p => p.1)).foldl
                (fun deps r => deps.erase r) p.2))) := by
  rw [Orchestrator.topoLoop, dif_neg hg]
  exact dif_neg hr

theorem topo_step_length_lt (graph : List (String × List String))
    (hr : ¬ ((graph.filter (fun p => p.2.isEmpty)).map (fun p => p.1)).isEmpty = true) :
    (graph.filter (fun p => !p.2.isEmpty)).length < graph.length := by
  have hne : (graph.filter (fun p => p.2.isEmpty)).map (fun p => p.1) ≠ [] := by
    intro hcon
    exact hr (by simp [hcon])
  have hex : ∃ p ∈ graph, p.2.isEmpty := by
    rcases List.exists_mem_of_ne_nil _ hne with ⟨x, hx⟩
    rcases List.mem_map.mp hx with ⟨p, hp, _⟩
    exact ⟨p, (List.mem_filter.mp hp).1, (List.mem_filter.mp hp).2⟩
  have hsplit := List.length_eq_length_filter_add (l := graph) (fun p => p.2.isEmpty)
  have hpos : 0 < (graph.filter (fun p => p.2.isEmpty)).length := by
    rcases hex with ⟨p, hp, hpe⟩
    exact List.length_pos.mpr (List.ne_nil_of_mem (List.mem_filter.mpr ⟨hp, hpe⟩))
  omega

theorem topoLoop_mem (n : Nat) :
    ∀ (graph : List (String × List String)), graph.length ≤ n →
    ∀ {x : String}, x ∈ graph.map Prod.fst → x ∈ Orchestrator.topoLoop graph := by
  induction n with
  | zero =>
      intro graph hlen x hx
      have : graph = [] := List.length_eq_zero.mp (Nat.le_zero.mp hlen)
      subst this
      simp at hx
  | succ n ih =>
      intro graph hlen x hx
      by_cases hg : graph.isEmpty = true
      · rw [List.isEmpty_iff] at hg
        subst hg
        simp at hx
      · by_cases hr : ((graph.filter (fun p => p.2.isEmpty)).map (fun p => p.1)).isEmpty
            = true
        · rw [topoLoop_eq_ready_empty graph hg hr]
          simpa using hx
        · rw [topoLoop_eq_step graph hg hr]
          rcases List.mem_map.mp hx with ⟨p, hp, hpx⟩
          by_cases hpe : p.2.isEmpty = true
          · refine List.mem_append.mpr (Or.inl ?_)
            exact List.mem_map.mpr ⟨p, List.mem_filter.mpr ⟨hp, hpe⟩, hpx⟩
          · refine List.mem_append.mpr (Or.inr ?_)
            apply ih _ (by
              have := topo_step_length_lt graph hr
              rw [List.length_map]
              omega)
            rw [List.map_map]
            refine List.mem_map.mpr ⟨p, List.mem_filter.mpr ⟨hp, by simpa using hpe⟩, ?_⟩
            simpa using hpx

theorem topoLoop_subset (n : Nat) :
    ∀ (graph : List (String × List String)), graph.length ≤ n →
    ∀ {x : String}, x ∈ Orchestrator.topoLoop graph → x ∈ graph.map Prod.fst := by
  induction n with
  | zero =>
      intro graph hlen x hx
      have : graph = [] := List.length_eq_zero.mp (Nat.le_zero.mp hlen)
      subst this
      simp [Orchestrator.topoLoop] at hx
  | succ n ih =>
      intro graph hlen x hx
      by_cases hg : graph.isEmpty = true
      · rw [List.isEmpty_iff] at hg
        subst hg
        simp [Orchestrator.topoLoop] at hx
      · by_cases hr : ((graph.filter (fun p => p.2.isEmpty)).map (fun p => p.1)).isEmpty
            = true
        · rw [topoLoop_eq_ready_empty graph hg hr] at hx
          simpa using hx
        · rw [topoLoop_eq_step graph hg hr] at hx
          rcases List.mem_append.mp hx with h1 | h2
          · rcases List.mem_map.mp h1 with ⟨p, hp, hpx⟩
            exact List.mem_map.mpr ⟨p, (List.mem_filter.mp hp).1, hpx⟩
          · have h3 := ih _ (by
              have := topo_step_length_lt graph hr
              rw [List.length_map]
              omega) h2
            rw [List.map_map] at h3
            rcases List.mem_map.mp h3 with ⟨p, hp, hpx⟩
            exact List.mem_map.mpr ⟨p, (List.mem_filter.mp hp).1, by simpa using hpx⟩

theorem pair_eq_of_keys_nodup {κ β : Type} :
    ∀ {l : List (κ × β)}, (l.map Prod.fst).Nodup →
    ∀ {p q : κ × β}, p ∈ l → q ∈ l → p.1 = q.1 → p = q := by
  intro l
  induction l with
  | nil =>
      intro _ p q hp
      simp at hp
  | cons r rest ih =>
      intro hnd p q hp hq hpq
      rw [List.map_cons, List.nodup_cons] at hnd
      rcases List.mem_cons.mp hp with hp1 | hp2 <;>
        rcases List.mem_cons.mp hq with hq1 | hq2
      · rw [hp1, hq1]
      · exfalso
        apply hnd.1
        have hrq : r.1 = q.1 := by rw [← hp1]; exact hpq
        rw [hrq]
        exact List.mem_map.mpr ⟨q, hq2, rfl⟩
      · exfalso
        apply hnd.1
        have hrp : r.1 = p.1 := by rw [← hq1]; exact hpq.symm
        rw [hrp]
        exact List.mem_map.mpr ⟨p, hp2, rfl⟩
      · exact ih hnd.2 hp2 hq2 hpq

theorem topoLoop_nodup (n : Nat) :
    ∀ (graph : List (String × List String)), graph.length ≤ n →
    (graph.map Prod.fst).Nodup → (Orchestrator.topoLoop graph).Nodup := by
  induction n with
  | zero =>
      intro graph hlen _
      have : graph = [] := List.length_eq_zero.mp (Nat.le_zero.mp hlen)
      subst this
      simp [Orchestrator.topoLoop]
  | succ n ih =>
      intro graph hlen hnd
      by_cases hg : graph.isEmpty = true
      · rw [List.isEmpty_iff] at hg
        subst hg
        simp [Orchestrator.topoLoop]
      · by_cases hr : ((graph.filter (fun p => p.2.isEmpty)).map (fun p => p.1)).isEmpty
            = true
        · rw [topoLoop_eq_ready_empty graph hg hr]
          simpa using hnd
        · rw [topoLoop_eq_step graph hg hr]
          have hready : ((graph.filter (fun p => p.2.isEmpty)).map
              (fun p => p.1)).Nodup := by
            have hsl : ((graph.filter (fun p => p.2.isEmpty)).map Prod.fst).Sublist
                (graph.map Prod.fst) := (List.filter_sublist graph).map Prod.fst
            exact hsl.nodup hnd
          have hkeys' : (((graph.filter (fun p => !p.2.isEmpty)).map
              (fun p => (p.1,
                ((graph.filter (fun p => p.2.isEmpty)).map (fun p => p.1)).foldl
                  (fun deps r => deps.erase r) p.2))).map Prod.fst).Nodup := by
            rw [List.map_map]
            show ((graph.filter (fun p => !p.2.isEmpty)).map (fun p => p.1)).Nodup
            have hsl : ((graph.filter (fun p => !p.2.isEmpty)).map Prod.fst).Sublist
                (graph.map Prod.fst) := (List.filter_sublist graph).map Prod.fst
            exact hsl.nodup hnd
          have hlen' : ((graph.filter (fun p => !p.2.isEmpty)).map
              (fun p => (p.1,
                ((graph.filter (fun p => p.2.isEmpty)).map (fun p => p.1)).foldl
                  (fun deps r => deps.erase r) p.2))).length ≤ n := by
            have := topo_step_length_lt graph hr
            rw [List.length_map]
            omega
          refine hready.append (ih _ hlen' hkeys') ?_
          intro x hx1 hx2
          have hx2' := topoLoop_subset _ _ hlen' hx2
          rw [List.map_map] at hx2'
          have hx2'' : x ∈ (graph.filter (fun p => !p.2.isEmpty)).map (fun p => p.1) :=
            hx2'
          rcases List.mem_map.mp hx1 with ⟨p, hp, hpx⟩
          rcases List.mem_map.mp hx2'' with ⟨q, hq, hqx⟩
          have hpq : p = q :=
            pair_eq_of_keys_nodup hnd (List.mem_filter.mp hp).1
              (List.mem_filter.mp hq).1 (by rw [hpx, hqx])
          have h1 : p.2.isEmpty = true := (List.mem_filter.mp hp).2
          have h2 : (!q.2.isEmpty) = true := (List.mem_filter.mp hq).2
          rw [← hpq] at h2
      
          rw [h1] at h2
          simp at h2

theorem analyzeToolDependencies_inv (requested : List String) :
    (∀ p ∈ Orchestrator.analyzeToolDependencies requested,
       p.2.input_deps = Orchestrator.inputDependencyRules p.1)
    ∧ ((Orchestrator.analyzeToolDependencies requested).map Prod.fst).Nodup := by
  have aux : ∀ (l : List String) (acc : List (String × Orchestrator.Node)),
      (∀ p ∈ acc, p.2.input_deps = Orchestrator.inputDependencyRules p.1) →
      (acc.map Prod.fst).Nodup →
      (∀ p ∈ l.foldl (fun nodes name =>
          if name ∈ Orchestrator.registeredTools then
            setKey nodes name
              { input_deps := Orchestrator.inputDependencyRules name
                output_deps := Orchestrator.analyzeOutputDependencies name requested }
          else nodes) acc,
        p.2.input_deps = Orchestrator.inputDependencyRules p.1)
      ∧ ((l.foldl (fun nodes name =>
          if name ∈ Orchestrator.registeredTools then
            setKey nodes name
              { input_deps := Orchestrator.inputDependencyRules name
                output_deps := Orchestrator.analyzeOutputDependencies name requested }
          else nodes) acc).map Prod.fst).Nodup := by
    intro l
    induction l with
    | nil =>
        intro acc h1 h2
        exact ⟨h1, h2⟩
    | cons m ms ih =>
        intro acc h1 h2
        rw [List.foldl_cons]
        by_cases hm : m ∈ Orchestrator.registeredTools
        · rw [if_pos hm]
          apply ih
          · intro p hp
            rcases mem_setKey hp with hin | heq
            · exact h1 p hin
            · rw [heq]
          · exact keys_setKey_nodup m _ h2
        · rw [if_neg hm]
          exact ih acc h1 h2
  exact aux requested [] (by simp) (by simp)

theorem analyzeToolDependencies_hasKey (requested : List String) (name : String)
    (hreq : name ∈ requested) (hreg : name ∈ Orchestrator.registeredTools) :
    hasKey (Orchestrator.analyzeToolDependencies requested) name = true := by
  have aux : ∀ (l : List String) (acc : List (String × Orchestrator.Node)),
      (name ∈ l ∨ hasKey acc name = true) →
      hasKey (l.foldl (fun nodes nm =>
          if nm ∈ Orchestrator.registeredTools then
            setKey nodes nm
              { input_deps := Orchestrator.inputDependencyRules nm
                output_deps := Orchestrator.analyzeOutputDependencies nm requested }
          else nodes) acc) name = true := by
    intro l
    induction l with
    | nil =>
        intro acc h
        rcases h with h | h
        · simp at h
        · exact h
    | cons m ms ih =>
        intro acc h
        rw [List.foldl_cons]
        by_cases hmname : m = name
        · subst hmname
          rw [if_pos hreg]
          exact ih _ (Or.inr (hasKey_setKey_self _ _ _))
        · rcases h with h | h
          · rcases List.mem_cons.mp h with h1 | h2
            · exact absurd h1.symm hmname
            · exact ih _ (Or.inl h2)
          · by_cases hm : m ∈ Orchestrator.registeredTools
            · rw [if_pos hm]
              exact ih _ (Or.inr (hasKey_setKey_mono _ _ h))
            · rw [if_neg hm]
              exact ih _ (Or.inr h)
  exact aux requested [] (Or.inl hreq)

theorem hasKey_mem_keys {κ β : Type} [DecidableEq κ] {l : List (κ × β)} {k : κ}
    (h : hasKey l k = true) : k ∈ l.map Prod.fst := by
  rw [hasKey] at h
  rcases Option.isSome_iff_exists.mp h with ⟨v, hv⟩
  exact List.mem_map.mpr ⟨(k, v), lookupKey_mem hv, rfl⟩

theorem depsOfGraph_rules (requested : List String) (name : String)
    (h : hasKey (Orchestrator.analyzeToolDependencies requested) name = true) :
    Orchestrator.depsOfGraph (Orchestrator.analyzeToolDependencies requested) name
      = Orchestrator.inputDependencyRules name := by
  rw [hasKey] at h
  rcases Option.isSome_iff_exists.mp h with ⟨nd, hnd⟩
  have hmem := lookupKey_mem hnd
  have hval := (analyzeToolDependencies_inv requested).1 _ hmem
  rw [Orchestrator.depsOfGraph, hnd]
  exact hval

/-- **C6.**  Whenever both `web_search` and `calculator` are among the
requested tools, the generated execution plan contains each of them in
some parallel group, and every group containing `web_search` comes
strictly — in particular never later than — the group containing
`calculator`, consistent with the fixed dependency rule that `calculator`
depends on `web_search`. -/
theorem claim_C6_web_search_before_calculator (requested : List String)
    (hweb : "web_search" ∈ requested) (hcalc : "calculator" ∈ requested) :
    (∃ i, "web_search" ∈ (Orchestrator.generateExecutionPlanGroups
        (Orchestrator.analyzeToolDependencies requested)).getD i [])
    ∧ (∃ j, "calculator" ∈ (Orchestrator.generateExecutionPlanGroups
        (Orchestrator.analyzeToolDependencies requested)).getD j [])
    ∧ (∀ i j,
        "web_search" ∈ (Orchestrator.generateExecutionPlanGroups
          (Orchestrator.analyzeToolDependencies requested)).getD i [] →
        "calculator" ∈ (Orchestrator.generateExecutionPlanGroups
          (Orchestrator.analyzeToolDependencies requested)).getD j [] →
        i < j) := by
  have hkweb : hasKey (Orchestrator.analyzeToolDependencies requested) "web_search"
      = true :=
    analyzeToolDependencies_hasKey requested _ hweb (by
      simp [Orchestrator.registeredTools])
  have hkcalc : hasKey (Orchestrator.analyzeToolDependencies requested) "calculator"
      = true :=
    analyzeToolDependencies_hasKey requested _ hcalc (by
      simp [Orchestrator.registeredTools])
  have hdw : Orchestrator.depsOfGraph
      (Orchestrator.analyzeToolDependencies requested) "web_search" = [] := by
    rw [depsOfGraph_rules requested _ hkweb]
    simp [Orchestrator.inputDependencyRules]
  have hdc : "web_search" ∈ Orchestrator.depsOfGraph
      (Orchestrator.analyzeToolDependencies requested) "calculator" := by
    rw [depsOfGraph_rules requested _ hkcalc]
    simp [Orchestrator.inputDependencyRules]
  have hkeys_eq : ((Orchestrator.analyzeToolDependencies requested).map
        (fun p => (p.1, p.2.input_deps))).map Prod.fst
      = (Orchestrator.analyzeToolDependencies requested).map Prod.fst := by
    rw [List.map_map]
    rfl
  have hworder : "web_search" ∈ Orchestrator.topologicalSort
      (Orchestrator.analyzeToolDependencies requested) := by
    apply topoLoop_mem ((Orchestrator.analyzeToolDependencies requested).map
      (fun p => (p.1, p.2.input_deps))).length _ (le_refl _)
    rw [hkeys_eq]
    exact hasKey_mem_keys hkweb
  have hcorder : "calculator" ∈ Orchestrator.topologicalSort
      (Orchestrator.analyzeToolDependencies requested) := by
    apply topoLoop_mem ((Orchestrator.analyzeToolDependencies requested).map
      (fun p => (p.1, p.2.input_deps))).length _ (le_refl _)
    rw [hkeys_eq]
    exact hasKey_mem_keys hkcalc
  have hnodup : (Orchestrator.topologicalSort
      (Orchestrator.analyzeToolDependencies requested)).Nodup := by
    apply topoLoop_nodup ((Orchestrator.analyzeToolDependencies requested).map
      (fun p => (p.1, p.2.input_deps))).length _ (le_refl _)
    rw [hkeys_eq]
    exact (analyzeToolDependencies_inv requested).2
  refine ⟨?_, ?_, ?_⟩
  · exact groupsLoop_cover _ _ _ (le_refl _) _ hworder
  · exact groupsLoop_cover _ _ _ (le_refl _) _ hcorder
  · intro i j hi hj
    exact groupsLoop_web_before_calc "web_search" "calculator"
      (Orchestrator.depsOfGraph (Orchestrator.analyzeToolDependencies requested))
      hdc hdw _ _ (le_refl _) hnodup hworder hcorder i j hi hj

/-- Witness for C6 at the concrete request
`[calculator, web_search, rag_retrieval, translator]`. -/
theorem claim_C6_web_search_before_calculator_witness :
    (∃ i, "web_search" ∈ (Orchestrator.generateExecutionPlanGroups
        (Orchestrator.analyzeToolDependencies
          ["calculator", "web_search", "rag_retrieval", "translator"])).getD i [])
    ∧ (∃ j, "calculator" ∈ (Orchestrator.generateExecutionPlanGroups
        (Orchestrator.analyzeToolDependencies
          ["calculator", "web_search", "rag_retrieval", "translator"])).getD j [])
    ∧ (∀ i j,
        "web_search" ∈ (Orchestrator.generateExecutionPlanGroups
          (Orchestrator.analyzeToolDependencies
            ["calculator", "web_search", "rag_retrieval", "translator"])).getD i [] →
        "calculator" ∈ (Orchestrator.generateExecutionPlanGroups
          (Orchestrator.analyzeToolDependencies
            ["calculator", "web_search", "rag_retrieval", "translator"])).getD j [] →
        i < j) :=
  claim_C6_web_search_before_calculator
    ["calculator", "web_search", "rag_retrieval", "translator"]
    (by simp) (by simp)
